import Mathlib

/-!
# go-structured-query (package `sq`, postgres): render-and-bind protocol

A shallow embedding of `postgres/values_query.go` and `postgres/row.go`.

* Go strings and `strings.Builder` contents are Lean `String`s; a function that
  writes into a `*strings.Builder` and appends to a `*[]interface{}` takes the
  buffer and the argument list and returns the new ones.
* A Go `panic(v)` is the `Except.error v` of `Except GoValue`; a function that
  mutates its receiver before it may panic returns the receiver state next to
  the `Except` result.
-/

namespace sq

/-! ## Go values -/

/-- Go `error` values met in this package. -/
inductive GoError where
  /-- An error made by the caller or returned by the driver, known by its text. -/
  | message (text : String)
  /-- The runtime error of `s[i]` with `i` outside `0 .. len(s)-1`. -/
  | indexOutOfRange (index length : Nat)
  /-- The runtime error of a failed type assertion `x.(T)`. -/
  | typeAssertion (want got : String)
  /-- The value of `fmt.Errorf("%s failed on %s:%d: %w", op, sourcefile, linenbr, err)`. -/
  | wrapped (op sourcefile : String) (linenbr : Nat) (err : GoError)
  deriving DecidableEq, Repr

/-- The dynamic values a non-nil `interface{}` holds here: query arguments and
panic payloads. -/
inductive GoValue where
  | bool (b : Bool)
  | int (i : Int)
  | str (s : String)
  | error (e : GoError)
  deriving DecidableEq, Repr

/-! ## values_query.go -/

/-- A `RowValue` is one row of argument values (`[]interface{}`). -/
abbrev RowValue := List GoValue

/-- The type `RowValues` is `[]RowValue`. -/
abbrev RowValues := List RowValue

/-- Modelled from the spec: `RowValue.AppendSQL` is not among the sources. A row
is rendered as a parenthesized, comma-joined rendering of its values; each value
is an argument value, written as the neutral placeholder `?` and pushed onto the
argument list. `first` tells whether the next value is the first of its row. -/
def RowValue.appendValues (first : Bool) :
    RowValue → String → List GoValue → String × List GoValue
  | [], buf, args => (buf, args)
  | v :: vs, buf, args =>
    RowValue.appendValues false vs ((if first then buf else buf ++ ", ") ++ "?") (args ++ [v])

/-- Modelled from the spec: `RowValue.AppendSQL` (see `RowValue.appendValues`). -/
def RowValue.AppendSQL (r : RowValue) (buf : String) (args : List GoValue) :
    String × List GoValue :=
  let res := RowValue.appendValues true r (buf ++ "(") args
  (res.1 ++ ")", res.2)

/-- Modelled from the spec: the loop of `RowValues.AppendSQL`, which is not among
the sources: the rows are rendered in order, comma-joined. -/
def RowValues.appendRows (first : Bool) :
    RowValues → String → List GoValue → String × List GoValue
  | [], buf, args => (buf, args)
  | r :: rs, buf, args =>
    let res := RowValue.AppendSQL r (if first then buf else buf ++ ", ") args
    RowValues.appendRows false rs res.1 res.2

/-- Modelled from the spec: `RowValues.AppendSQL` is not among the sources:
"each row rendered as a parenthesized, comma-joined rendering of its values,
rows themselves comma-joined". -/
def RowValues.AppendSQL (rs : RowValues) (buf : String) (args : List GoValue) :
    String × List GoValue :=
  RowValues.appendRows true rs buf args

/-- Modelled from the spec: the scan of `questionToDollarPlaceholders` over the
characters of the query, `i` placeholders having been numbered so far: each
neutral placeholder `?` becomes `$` followed by the decimal of the next number. -/
def questionToDollarFrom (i : Nat) : List Char → List Char
  | [] => []
  | c :: cs =>
    if c = '?' then
      ('$' :: (toString (i + 1)).data) ++ questionToDollarFrom (i + 1) cs
    else
      c :: questionToDollarFrom i cs

/-- Modelled from the spec: `questionToDollarPlaceholders(buf, query)` is not
among the sources: it "rewrites each neutral placeholder into the target
dialect's numbered form, assigning numbers by left-to-right occurrence starting
at 1", writing the result into `buf`. -/
def questionToDollarPlaceholders (buf query : String) : String :=
  buf ++ String.mk (questionToDollarFrom 0 query.data)

/-- The mode of a `Column` collector; `values_query.go` uses `colmodeInsert`. -/
inductive colmode where
  | colmodeInsert
  | colmodeUpdate
  deriving DecidableEq, Repr

/-- The `Column` collector handed to a column mapper. Its declaration is not
among the sources; `values_query.go` sets `mode` and reads `rowValues`. -/
structure Column where
  mode : colmode
  rowValues : RowValues
  deriving DecidableEq, Repr

/-- A column mapper `func(*Column)`: it leaves the collector in a new state, or
panics with a payload. -/
abbrev ColumnMapperFunc := Column → Except GoValue Column

/-- ValuesQuery represents a VALUES query. A nil `ColumnMapper` is `none`. -/
structure ValuesQuery where
  nested : Bool
  RowValues : RowValues
  ColumnMapper : Option ColumnMapperFunc

/-- Values returns a new empty ValuesQuery (the zero value of the struct). -/
def Values : ValuesQuery :=
  { nested := false, RowValues := [], ColumnMapper := none }

/-- Lines 38-42 of `AppendSQL`: with a mapper, run it against
`&Column{mode: colmodeInsert}` and take `col.rowValues`; without one keep
`q.RowValues`. -/
def ValuesQuery.mappedRowValues (q : ValuesQuery) : Except GoValue sq.RowValues :=
  match q.ColumnMapper with
  | some mapper =>
    match mapper { mode := colmode.colmodeInsert, rowValues := [] } with
    | Except.ok col => Except.ok col.rowValues
    | Except.error r => Except.error r
  | none => Except.ok q.RowValues

/-- AppendSQL marshals the ValuesQuery into a buffer and args slice. The
receiver is a value, so the assignment to `q.RowValues` stays local. -/
def ValuesQuery.AppendSQL (q : ValuesQuery) (buf : String) (args : List GoValue) :
    Except GoValue (String × List GoValue) :=
  match q.mappedRowValues with
  | Except.error r => Except.error r
  | Except.ok rowValues =>
    let res := sq.RowValues.AppendSQL rowValues (buf ++ "VALUES ") args
    if !q.nested then
      Except.ok (questionToDollarPlaceholders "" res.1, res.2)
    else
      Except.ok (res.1, res.2)

/-- ToSQL marshals the ValuesQuery into a query string and args slice. The
deferred function sees the value `r` of a panic raised under `AppendSQL`
(`recover()` is non-nil exactly then) and sets the named result `args` to the
one-element slice holding `r`; the named result `query` is still empty, the
`return` statement not having run. -/
def ValuesQuery.ToSQL (q : ValuesQuery) : String × List GoValue :=
  match q.AppendSQL "" [] with
  | Except.ok res => (res.1, res.2)
  | Except.error r => ("", [r])

/-- Values appends a new RowValue to the ValuesQuery. The result is the query
this one call returns; the backing array that Go's `append` may share between
the results of several calls on the same base query is not modelled. -/
def ValuesQuery.Values (q : ValuesQuery) (values : List GoValue) : ValuesQuery :=
  { q with RowValues := q.RowValues ++ [values] }

/-- Valuesx sets the column mapper for the ValuesQuery. -/
def ValuesQuery.Valuesx (q : ValuesQuery) (mapper : Option ColumnMapperFunc) : ValuesQuery :=
  { q with ColumnMapper := mapper }

/-- NestThis indicates to the ValuesQuery that it is nested. -/
def ValuesQuery.NestThis (q : ValuesQuery) : ValuesQuery :=
  { q with nested := true }

/-! ## row.go -/

/-- Go `bool`. -/
abbrev GoBool := Bool

/-- Go `string`. -/
abbrev GoString := String

/-- A `float64`, kept as its bit pattern: the Row code only copies it. -/
structure GoFloat64 where
  bits : Nat
  deriving DecidableEq, Repr

/-- A `time.Time`, kept as a count of nanoseconds: the Row code only copies it. -/
structure GoTime where
  nanos : Int
  deriving DecidableEq, Repr

/-- Struct `sql.NullBool`. -/
structure NullBool where
  Bool : GoBool
  Valid : GoBool
  deriving DecidableEq, Repr

/-- Struct `sql.NullFloat64`. -/
structure NullFloat64 where
  Float64 : GoFloat64
  Valid : GoBool
  deriving DecidableEq, Repr

/-- Struct `sql.NullInt32`. -/
structure NullInt32 where
  Int32 : Int
  Valid : GoBool
  deriving DecidableEq, Repr

/-- Struct `sql.NullInt64`. -/
structure NullInt64 where
  Int64 : Int
  Valid : GoBool
  deriving DecidableEq, Repr

/-- Struct `sql.NullString`. -/
structure NullString where
  String : GoString
  Valid : GoBool
  deriving DecidableEq, Repr

/-- Struct `sql.NullTime`. -/
structure NullTime where
  Time : GoTime
  Valid : GoBool
  deriving DecidableEq, Repr

/-- A `Field` (an interface whose implementations are not among the sources):
some field known by its name, or the `CustomPredicate` built by `NullBool`. -/
inductive Field where
  | named (name : String)
  | CustomPredicate (Format : String) (Values : List GoValue)
  deriving DecidableEq, Repr

/-- A `Predicate` (an interface not among the sources), taken with the one
method `row.go` calls: `AppendSQLExclude(buf, &args, nil)` gives the new buffer
and argument list. -/
structure Predicate where
  AppendSQLExclude : String → List GoValue → String × List GoValue

/-- The dynamic type of the `dest interface{}` handed to `ScanInto`: one of the
thirteen pointer types of its type switch (a valid pointer), or any other value,
known by an identifier. -/
inductive DestArg where
  | ptrBool
  | ptrNullBool
  | ptrFloat64
  | ptrNullFloat64
  | ptrInt
  | ptrInt32
  | ptrNullInt32
  | ptrInt64
  | ptrNullInt64
  | ptrString
  | ptrNullString
  | ptrTime
  | ptrNullTime
  | other (id : Nat)
  deriving DecidableEq, Repr

/-- An entry of `r.dest`: a scratch destination. The six `sql.Null*` cells are
allocated by the Row and carry their content; `passthrough` is the caller's own
destination, `array` is `pq.Array(slice)` around the caller's slice. -/
inductive Dest where
  | nullBool (v : NullBool)
  | nullFloat64 (v : NullFloat64)
  | nullInt32 (v : NullInt32)
  | nullInt64 (v : NullInt64)
  | nullString (v : NullString)
  | nullTime (v : NullTime)
  | passthrough (dest : DestArg)
  | array (slice : Nat)
  deriving DecidableEq, Repr

/-- The dynamic type of a scratch destination, as a type assertion sees it. -/
def Dest.typeName : Dest → String
  | Dest.nullBool _ => "*sql.NullBool"
  | Dest.nullFloat64 _ => "*sql.NullFloat64"
  | Dest.nullInt32 _ => "*sql.NullInt32"
  | Dest.nullInt64 _ => "*sql.NullInt64"
  | Dest.nullString _ => "*sql.NullString"
  | Dest.nullTime _ => "*sql.NullTime"
  | Dest.passthrough _ => "interface {}"
  | Dest.array _ => "pq.Array"

/-- An entry of `r.tmpdest`, the destination list of a rescan: the discard
target `&nothing`, the caller's destination, or `pq.Array(slice)`. -/
inductive Target where
  | nothing
  | dest (d : DestArg)
  | array (slice : Nat)
  deriving DecidableEq, Repr

/-- What the driver stores through one destination of a scan. -/
inductive DriverValue where
  | null
  | value (v : GoValue)
  deriving DecidableEq, Repr

/-- The live cursor `*sql.Rows`, an external collaborator taken with the one
method `row.go` calls: `Scan(dest...)` returns the driver's error, or (for a nil
error) the value it stored through the destination at each position. -/
structure Rows where
  Scan : List Target → Except GoError (Nat → DriverValue)

/-- The result `sourcefile, linenbr` of `runtime.Caller(1)`: the place of the
call of `ScanInto` or `ScanArray`. -/
structure CallSite where
  sourcefile : String
  linenbr : Nat
  deriving DecidableEq, Repr

/-- Row represents the state of a row after a call to rows.Next(). A nil `rows`
is `none`; `index` is only ever zero or the successor of a valid slice index;
a nil slice is the empty list. -/
structure Row where
  rows : Option Rows
  index : Nat
  fields : List Field
  dest : List Dest
  tmpdest : List Target

/-- The value stored through the pointer handed to `ScanInto`. -/
inductive Written where
  | bool (v : GoBool)
  | nullBool (v : NullBool)
  | float64 (v : GoFloat64)
  | nullFloat64 (v : NullFloat64)
  | int (v : Int)
  | int32 (v : Int)
  | nullInt32 (v : NullInt32)
  | int64 (v : Int)
  | nullInt64 (v : NullInt64)
  | string (v : GoString)
  | nullString (v : NullString)
  | time (v : GoTime)
  | nullTime (v : NullTime)
  | scanned (v : DriverValue)
  deriving DecidableEq, Repr

/-- The conversion `int(x)` of an `int64`; `int` is 64 bits wide on the
platforms considered, so the value is kept. -/
def intOfInt64 (x : Int) : Int := x

/-- The index expression `r.dest[r.index]`: a run-time panic outside the slice. -/
def Row.destAtIndex (r : Row) : Except GoValue Dest :=
  match r.dest[r.index]? with
  | some d => Except.ok d
  | none => Except.error (GoValue.error (GoError.indexOutOfRange r.index r.dest.length))

/-- The expression `r.dest[r.index].(*sql.NullBool)`. -/
def Row.destNullBool (r : Row) : Except GoValue NullBool :=
  match r.destAtIndex with
  | Except.ok (Dest.nullBool v) => Except.ok v
  | Except.ok d => Except.error (GoValue.error (GoError.typeAssertion "*sql.NullBool" d.typeName))
  | Except.error e => Except.error e

/-- The expression `r.dest[r.index].(*sql.NullFloat64)`. -/
def Row.destNullFloat64 (r : Row) : Except GoValue NullFloat64 :=
  match r.destAtIndex with
  | Except.ok (Dest.nullFloat64 v) => Except.ok v
  | Except.ok d => Except.error (GoValue.error (GoError.typeAssertion "*sql.NullFloat64" d.typeName))
  | Except.error e => Except.error e

/-- The expression `r.dest[r.index].(*sql.NullInt32)`. -/
def Row.destNullInt32 (r : Row) : Except GoValue NullInt32 :=
  match r.destAtIndex with
  | Except.ok (Dest.nullInt32 v) => Except.ok v
  | Except.ok d => Except.error (GoValue.error (GoError.typeAssertion "*sql.NullInt32" d.typeName))
  | Except.error e => Except.error e

/-- The expression `r.dest[r.index].(*sql.NullInt64)`. -/
def Row.destNullInt64 (r : Row) : Except GoValue NullInt64 :=
  match r.destAtIndex with
  | Except.ok (Dest.nullInt64 v) => Except.ok v
  | Except.ok d => Except.error (GoValue.error (GoError.typeAssertion "*sql.NullInt64" d.typeName))
  | Except.error e => Except.error e

/-- The expression `r.dest[r.index].(*sql.NullString)`. -/
def Row.destNullString (r : Row) : Except GoValue NullString :=
  match r.destAtIndex with
  | Except.ok (Dest.nullString v) => Except.ok v
  | Except.ok d => Except.error (GoValue.error (GoError.typeAssertion "*sql.NullString" d.typeName))
  | Except.error e => Except.error e

/-- The expression `r.dest[r.index].(*sql.NullTime)`. -/
def Row.destNullTime (r : Row) : Except GoValue NullTime :=
  match r.destAtIndex with
  | Except.ok (Dest.nullTime v) => Except.ok v
  | Except.ok d => Except.error (GoValue.error (GoError.typeAssertion "*sql.NullTime" d.typeName))
  | Except.error e => Except.error e

/-- The shared tail of the typed cases of `ScanInto`: the value read from the
scratch destination is stored through the caller's pointer and `r.index++`
runs; a panic of the read leaves the Row as it was. -/
def Row.storeTyped (r : Row) (read : Except GoValue Written) :
    Row × Except GoValue (Option Written) :=
  match read with
  | Except.ok w => ({ r with index := r.index + 1 }, Except.ok (some w))
  | Except.error e => (r, Except.error e)

/-- Lines 102-106 and 128-133: the rescan list is rebuilt, all discard targets,
when its length differs from that of `r.dest`. -/
def Row.rescanTargets (r : Row) : List Target :=
  if r.tmpdest.length != r.dest.length then
    List.replicate r.dest.length Target.nothing
  else
    r.tmpdest

/-- Lines 102-116 of `ScanInto` and 128-141 of `ScanArray`, which differ in the
target and in the name `op` put in the error: the single-column rescan. The
result is the value the driver stored through `target`. -/
def Row.rescan (r : Row) (rows : Rows) (target : Target) (op : String) (site : CallSite) :
    Row × Except GoValue DriverValue :=
  let r1 : Row := { r with tmpdest := r.rescanTargets }
  if r1.index < r1.tmpdest.length then
    let r2 : Row := { r1 with tmpdest := r1.tmpdest.set r1.index target }
    match rows.Scan r2.tmpdest with
    | Except.error err =>
      (r2, Except.error (GoValue.error (GoError.wrapped op site.sourcefile site.linenbr err)))
    | Except.ok stored =>
      ({ r2 with tmpdest := r2.tmpdest.set r2.index Target.nothing, index := r2.index + 1 },
        Except.ok (stored r2.index))
  else
    (r1, Except.error (GoValue.error (GoError.indexOutOfRange r1.index r1.tmpdest.length)))

/-- ScanInto scans the field into a dest, where dest is a pointer. The result
is the value stored through `dest` by this call (`none` in discovery mode, where
nothing is stored). -/
def Row.ScanInto (r : Row) (dest : DestArg) (field : Field) (site : CallSite) :
    Row × Except GoValue (Option Written) :=
  match r.rows with
  | none =>
    let r1 : Row := { r with fields := r.fields ++ [field] }
    let scratch : Dest :=
      match dest with
      | DestArg.ptrBool | DestArg.ptrNullBool => Dest.nullBool ⟨false, false⟩
      | DestArg.ptrFloat64 | DestArg.ptrNullFloat64 => Dest.nullFloat64 ⟨⟨0⟩, false⟩
      | DestArg.ptrInt32 | DestArg.ptrNullInt32 => Dest.nullInt32 ⟨0, false⟩
      | DestArg.ptrInt | DestArg.ptrInt64 | DestArg.ptrNullInt64 => Dest.nullInt64 ⟨0, false⟩
      | DestArg.ptrString | DestArg.ptrNullString => Dest.nullString ⟨"", false⟩
      | DestArg.ptrTime | DestArg.ptrNullTime => Dest.nullTime ⟨⟨0⟩, false⟩
      | DestArg.other id => Dest.passthrough (DestArg.other id)
    ({ r1 with dest := r1.dest ++ [scratch] }, Except.ok none)
  | some rows =>
    match dest with
    | DestArg.ptrBool =>
      r.storeTyped (r.destNullBool.map fun nullbool => Written.bool nullbool.Bool)
    | DestArg.ptrNullBool =>
      r.storeTyped (r.destNullBool.map fun nullbool => Written.nullBool nullbool)
    | DestArg.ptrFloat64 =>
      r.storeTyped (r.destNullFloat64.map fun nullfloat64 => Written.float64 nullfloat64.Float64)
    | DestArg.ptrNullFloat64 =>
      r.storeTyped (r.destNullFloat64.map fun nullfloat64 => Written.nullFloat64 nullfloat64)
    | DestArg.ptrInt =>
      r.storeTyped (r.destNullInt64.map fun nullint64 => Written.int (intOfInt64 nullint64.Int64))
    | DestArg.ptrInt32 =>
      r.storeTyped (r.destNullInt32.map fun nullint32 => Written.int32 nullint32.Int32)
    | DestArg.ptrNullInt32 =>
      r.storeTyped (r.destNullInt32.map fun nullint32 => Written.nullInt32 nullint32)
    | DestArg.ptrInt64 =>
      r.storeTyped (r.destNullInt64.map fun nullint64 => Written.int64 nullint64.Int64)
    | DestArg.ptrNullInt64 =>
      r.storeTyped (r.destNullInt64.map fun nullint64 => Written.nullInt64 nullint64)
    | DestArg.ptrString =>
      r.storeTyped (r.destNullString.map fun nullstring => Written.string nullstring.String)
    | DestArg.ptrNullString =>
      r.storeTyped (r.destNullString.map fun nullstring => Written.nullString nullstring)
    | DestArg.ptrTime =>
      r.storeTyped (r.destNullTime.map fun nulltime => Written.time nulltime.Time)
    | DestArg.ptrNullTime =>
      r.storeTyped (r.destNullTime.map fun nulltime => Written.nullTime nulltime)
    | DestArg.other id =>
      let res := r.rescan rows (Target.dest (DestArg.other id)) "row.ScanInto" site
      (res.1, res.2.map fun v => some (Written.scanned v))

/-- ScanArray accepts a pointer to a slice and scans a postgres array into it.
The result is the value the driver stored through `pq.Array(slice)` (`none` in
discovery mode). -/
def Row.ScanArray (r : Row) (slice : Nat) (field : Field) (site : CallSite) :
    Row × Except GoValue (Option DriverValue) :=
  match r.rows with
  | none =>
    ({ r with fields := r.fields ++ [field], dest := r.dest ++ [Dest.array slice] },
      Except.ok none)
  | some rows =>
    let res := r.rescan rows (Target.array slice) "row.ScanArray" site
    (res.1, res.2.map some)

/-- The shared tail of the typed accessors in extraction mode: the value read
from the scratch destination is returned after `r.index++`; a panic of the read
leaves the Row as it was. -/
def Row.advance {α : Type} (r : Row) (read : Except GoValue α) : Row × Except GoValue α :=
  match read with
  | Except.ok v => ({ r with index := r.index + 1 }, Except.ok v)
  | Except.error e => (r, Except.error e)

/-- The result of a call with the returned value changed by `f`, as in
`r.NullBool(predicate).Bool`; a panic passes through. -/
def thenField {α β : Type} (f : α → β) (res : Row × Except GoValue α) :
    Row × Except GoValue β :=
  (res.1, res.2.map f)

/-- NullBool returns the sql.NullBool value of the Predicate. -/
def Row.NullBool (r : Row) (predicate : Predicate) : Row × Except GoValue NullBool :=
  match r.rows with
  | none =>
    let res := predicate.AppendSQLExclude "" []
    ({ r with
        fields := r.fields ++ [Field.CustomPredicate res.1 res.2],
        dest := r.dest ++ [Dest.nullBool ⟨false, false⟩] },
      Except.ok ⟨false, false⟩)
  | some _ => r.advance r.destNullBool

/-- RowNullFloat64 returns the sql.NullFloat64 value of the Field. -/
def RowNullFloat64 (r : Row) (field : Field) : Row × Except GoValue NullFloat64 :=
  match r.rows with
  | none =>
    ({ r with fields := r.fields ++ [field], dest := r.dest ++ [Dest.nullFloat64 ⟨⟨0⟩, false⟩] },
      Except.ok ⟨⟨0⟩, false⟩)
  | some _ => r.advance r.destNullFloat64

/-- RowNullInt64 returns the sql.NullInt64 value of the Field. -/
def RowNullInt64 (r : Row) (field : Field) : Row × Except GoValue NullInt64 :=
  match r.rows with
  | none =>
    ({ r with fields := r.fields ++ [field], dest := r.dest ++ [Dest.nullInt64 ⟨0, false⟩] },
      Except.ok ⟨0, false⟩)
  | some _ => r.advance r.destNullInt64

/-- RowNullString returns the sql.NullString value of the Field. -/
def RowNullString (r : Row) (field : Field) : Row × Except GoValue NullString :=
  match r.rows with
  | none =>
    ({ r with fields := r.fields ++ [field], dest := r.dest ++ [Dest.nullString ⟨"", false⟩] },
      Except.ok ⟨"", false⟩)
  | some _ => r.advance r.destNullString

/-- RowNullTime returns the sql.NullTime value of the Field. -/
def RowNullTime (r : Row) (field : Field) : Row × Except GoValue NullTime :=
  match r.rows with
  | none =>
    ({ r with fields := r.fields ++ [field], dest := r.dest ++ [Dest.nullTime ⟨⟨0⟩, false⟩] },
      Except.ok ⟨⟨0⟩, false⟩)
  | some _ => r.advance r.destNullTime

/-- BoolValid returns the bool value indicating if the Predicate is non-NULL. -/
def Row.BoolValid (r : Row) (predicate : Predicate) : Row × Except GoValue GoBool :=
  thenField (fun v => v.Valid) (r.NullBool predicate)

/-- Float64 returns the float64 value of the NumberField. -/
def Row.Float64 (r : Row) (field : Field) : Row × Except GoValue GoFloat64 :=
  thenField (fun v => v.Float64) (RowNullFloat64 r field)

/-- Float64Valid returns the bool value indicating if the NumberField is non-NULL. -/
def Row.Float64Valid (r : Row) (field : Field) : Row × Except GoValue GoBool :=
  thenField (fun v => v.Valid) (RowNullFloat64 r field)

/-- NullFloat64 returns the sql.NullFloat64 value of the NumberField. -/
def Row.NullFloat64 (r : Row) (field : Field) : Row × Except GoValue NullFloat64 :=
  RowNullFloat64 r field

/-- RowFloat64 returns the float64 value of a Field. -/
def RowFloat64 (r : Row) (field : Field) : Row × Except GoValue GoFloat64 :=
  thenField (fun v => v.Float64) (RowNullFloat64 r field)

/-- RowFloat64Valid returns the bool value indicating if the Field is non-NULL. -/
def RowFloat64Valid (r : Row) (field : Field) : Row × Except GoValue GoBool :=
  thenField (fun v => v.Valid) (RowNullFloat64 r field)

/-- IntValid returns the bool value indicating if the NumberField is non-NULL. -/
def Row.IntValid (r : Row) (field : Field) : Row × Except GoValue GoBool :=
  thenField (fun v => v.Valid) (RowNullInt64 r field)

/-- RowInt returns the int value of the Field. -/
def RowInt (r : Row) (field : Field) : Row × Except GoValue Int :=
  thenField (fun v => intOfInt64 v.Int64) (RowNullInt64 r field)

/-- RowIntValid returns the bool value indicating if the Field is non-NULL. -/
def RowIntValid (r : Row) (field : Field) : Row × Except GoValue GoBool :=
  thenField (fun v => v.Valid) (RowNullInt64 r field)

/-- Int64 returns the int64 value of the NumberField. -/
def Row.Int64 (r : Row) (field : Field) : Row × Except GoValue Int :=
  thenField (fun v => v.Int64) (RowNullInt64 r field)

/-- NullInt64 returns the sql.NullInt64 value of the NumberField. -/
def Row.NullInt64 (r : Row) (field : Field) : Row × Except GoValue NullInt64 :=
  RowNullInt64 r field

/-- Int64Valid returns the bool value indicating if the NumberField is non-NULL. -/
def Row.Int64Valid (r : Row) (field : Field) : Row × Except GoValue GoBool :=
  thenField (fun v => v.Valid) (r.NullInt64 field)

/-- RowInt64 returns the int64 value of the Field. -/
def RowInt64 (r : Row) (field : Field) : Row × Except GoValue Int :=
  thenField (fun v => v.Int64) (RowNullInt64 r field)

/-- RowInt64Valid returns the bool value indicating if the Field is non-NULL. -/
def RowInt64Valid (r : Row) (field : Field) : Row × Except GoValue GoBool :=
  thenField (fun v => v.Valid) (RowNullInt64 r field)

/-- StringValid returns the bool value indicating if the StringField is non-NULL. -/
def Row.StringValid (r : Row) (field : Field) : Row × Except GoValue GoBool :=
  thenField (fun v => v.Valid) (RowNullString r field)

/-- NullString returns the sql.NullString value of the StringField. -/
def Row.NullString (r : Row) (field : Field) : Row × Except GoValue NullString :=
  RowNullString r field

/-- RowString returns the string value of the Field. -/
def RowString (r : Row) (field : Field) : Row × Except GoValue GoString :=
  thenField (fun v => v.String) (RowNullString r field)

/-- RowStringValid returns the bool value indicating if the Field is non-NULL. -/
def RowStringValid (r : Row) (field : Field) : Row × Except GoValue GoBool :=
  thenField (fun v => v.Valid) (RowNullString r field)

/-- Time returns the time.Time value of the TimeField. -/
def Row.Time (r : Row) (field : Field) : Row × Except GoValue GoTime :=
  thenField (fun v => v.Time) (RowNullTime r field)

/-- TimeValid returns a bool value indicating if the TimeField is non-NULL. -/
def Row.TimeValid (r : Row) (field : Field) : Row × Except GoValue GoBool :=
  thenField (fun v => v.Valid) (RowNullTime r field)

/-- NullTime returns the sql.NullTime value of the TimeField. -/
def Row.NullTime (r : Row) (field : Field) : Row × Except GoValue NullTime :=
  RowNullTime r field

/-- RowTime returns the time.Time value of the Field. -/
def RowTime (r : Row) (field : Field) : Row × Except GoValue GoTime :=
  thenField (fun v => v.Time) (RowNullTime r field)

/-- RowTimeValid returns a bool value indicating if the Field is non-NULL. -/
def RowTimeValid (r : Row) (field : Field) : Row × Except GoValue GoBool :=
  thenField (fun v => v.Valid) (RowNullTime r field)

/-- Bool returns the bool value of the Predicate. -/
def Row.Bool (r : Row) (predicate : Predicate) : Row × Except GoValue GoBool :=
  thenField (fun v => v.Bool) (r.NullBool predicate)

/-- Int returns the int value of the NumberField. -/
def Row.Int (r : Row) (field : Field) : Row × Except GoValue ℤ :=
  thenField (fun v => intOfInt64 v.Int64) (RowNullInt64 r field)

/-- String returns the string value of the StringField. -/
def Row.String (r : Row) (field : Field) : Row × Except GoValue GoString :=
  thenField (fun v => v.String) (RowNullString r field)

/-! ## Statement side: the texts the spec names -/

/-- The dialect placeholder `$k`. -/
def dollarPlaceholder (k : Nat) : String := "$" ++ toString k

/-- Statement side: a row of `n` dialect placeholders numbered `start + 1`,
..., `start + n`, comma-joined and parenthesized. -/
def dollarRow (start n : Nat) : String :=
  "(" ++ ", ".intercalate ((List.range n).map fun j => dollarPlaceholder (start + j + 1)) ++ ")"

/-- Statement side: the rows of dialect placeholders for `rows`, numbered
consecutively across the rows, `start` placeholders coming before them. -/
def dollarRows (start : Nat) : RowValues → List String
  | [] => []
  | r :: rs => dollarRow start r.length :: dollarRows (start + r.length) rs

/-- Statement side: the translated text `VALUES ($1, $2), ($3, $4)` for `rows`. -/
def valuesTextDollar (rows : RowValues) : String :=
  "VALUES " ++ ", ".intercalate (dollarRows 0 rows)

/-- Statement side: a row of `n` neutral placeholders, `(?, ?)`. -/
def questionRow (n : Nat) : String :=
  "(" ++ ", ".intercalate (List.replicate n "?") ++ ")"

/-- Statement side: the neutral text `VALUES (?, ?), (?, ?)` for `rows`. -/
def valuesTextQuestion (rows : RowValues) : String :=
  "VALUES " ++ ", ".intercalate (rows.map fun r => questionRow r.length)

/-- The query built by the chain `Values().Values(r1...).Values(r2...)...`. -/
def valuesChain (q : ValuesQuery) (rows : RowValues) : ValuesQuery :=
  rows.foldl ValuesQuery.Values q

/-- The translation of a string, `i` placeholders having been numbered. -/
def translateFrom (i : Nat) (s : String) : String :=
  String.mk (questionToDollarFrom i s.data)

/-- The number of neutral placeholders of a string. -/
def questionCount (s : String) : Nat :=
  s.data.count '?'

/-- The translations of the strings of a list, numbered consecutively. -/
def translateList (i : Nat) : List String → List String
  | [] => []
  | a :: as => translateFrom i a :: translateList (i + questionCount a) as

/-! ## Sequences of accessor calls -/

/-- One accessor call a caller makes on a Row: the method or function of
`row.go` of that name, with its arguments. -/
inductive Call where
  | ScanInto (dest : DestArg) (field : Field) (site : CallSite)
  | ScanArray (slice : Nat) (field : Field) (site : CallSite)
  | Bool (predicate : Predicate)
  | BoolValid (predicate : Predicate)
  | NullBool (predicate : Predicate)
  | Float64 (field : Field)
  | Float64Valid (field : Field)
  | NullFloat64 (field : Field)
  | RowFloat64 (field : Field)
  | RowFloat64Valid (field : Field)
  | RowNullFloat64 (field : Field)
  | Int (field : Field)
  | IntValid (field : Field)
  | RowInt (field : Field)
  | RowIntValid (field : Field)
  | Int64 (field : Field)
  | Int64Valid (field : Field)
  | NullInt64 (field : Field)
  | RowInt64 (field : Field)
  | RowInt64Valid (field : Field)
  | RowNullInt64 (field : Field)
  | String (field : Field)
  | StringValid (field : Field)
  | NullString (field : Field)
  | RowString (field : Field)
  | RowStringValid (field : Field)
  | RowNullString (field : Field)
  | Time (field : Field)
  | TimeValid (field : Field)
  | NullTime (field : Field)
  | RowTime (field : Field)
  | RowTimeValid (field : Field)
  | RowNullTime (field : Field)

/-- The value an accessor call returns; for `ScanInto` and `ScanArray`, which
return nothing, the value stored through the caller's destination. -/
inductive Val where
  | stored (w : Option Written)
  | array (v : Option DriverValue)
  | bool (v : GoBool)
  | nullBool (v : NullBool)
  | float64 (v : GoFloat64)
  | nullFloat64 (v : NullFloat64)
  | int (v : Int)
  | int64 (v : Int)
  | nullInt64 (v : NullInt64)
  | string (v : GoString)
  | nullString (v : NullString)
  | time (v : GoTime)
  | nullTime (v : NullTime)
  deriving DecidableEq, Repr

/-- The call made on the Row `r`. -/
def Call.run (c : Call) (r : Row) : Row × Except GoValue Val :=
  match c with
  | Call.ScanInto dest field site => thenField Val.stored (r.ScanInto dest field site)
  | Call.ScanArray slice field site => thenField Val.array (r.ScanArray slice field site)
  | Call.Bool predicate => thenField Val.bool (r.Bool predicate)
  | Call.BoolValid predicate => thenField Val.bool (r.BoolValid predicate)
  | Call.NullBool predicate => thenField Val.nullBool (r.NullBool predicate)
  | Call.Float64 field => thenField Val.float64 (r.Float64 field)
  | Call.Float64Valid field => thenField Val.bool (r.Float64Valid field)
  | Call.NullFloat64 field => thenField Val.nullFloat64 (r.NullFloat64 field)
  | Call.RowFloat64 field => thenField Val.float64 (sq.RowFloat64 r field)
  | Call.RowFloat64Valid field => thenField Val.bool (sq.RowFloat64Valid r field)
  | Call.RowNullFloat64 field => thenField Val.nullFloat64 (sq.RowNullFloat64 r field)
  | Call.Int field => thenField Val.int (r.Int field)
  | Call.IntValid field => thenField Val.bool (r.IntValid field)
  | Call.RowInt field => thenField Val.int (sq.RowInt r field)
  | Call.RowIntValid field => thenField Val.bool (sq.RowIntValid r field)
  | Call.Int64 field => thenField Val.int64 (r.Int64 field)
  | Call.Int64Valid field => thenField Val.bool (r.Int64Valid field)
  | Call.NullInt64 field => thenField Val.nullInt64 (r.NullInt64 field)
  | Call.RowInt64 field => thenField Val.int64 (sq.RowInt64 r field)
  | Call.RowInt64Valid field => thenField Val.bool (sq.RowInt64Valid r field)
  | Call.RowNullInt64 field => thenField Val.nullInt64 (sq.RowNullInt64 r field)
  | Call.String field => thenField Val.string (r.String field)
  | Call.StringValid field => thenField Val.bool (r.StringValid field)
  | Call.NullString field => thenField Val.nullString (r.NullString field)
  | Call.RowString field => thenField Val.string (sq.RowString r field)
  | Call.RowStringValid field => thenField Val.bool (sq.RowStringValid r field)
  | Call.RowNullString field => thenField Val.nullString (sq.RowNullString r field)
  | Call.Time field => thenField Val.time (r.Time field)
  | Call.TimeValid field => thenField Val.bool (r.TimeValid field)
  | Call.NullTime field => thenField Val.nullTime (r.NullTime field)
  | Call.RowTime field => thenField Val.time (sq.RowTime r field)
  | Call.RowTimeValid field => thenField Val.bool (sq.RowTimeValid r field)
  | Call.RowNullTime field => thenField Val.nullTime (sq.RowNullTime r field)

/-- The calls made in order on the Row; a panic ends the sequence. -/
def runCalls : List Call → Row → Row × Except GoValue (List Val)
  | [], r => (r, Except.ok [])
  | c :: cs, r =>
    match c.run r with
    | (r1, Except.ok v) => thenField (fun vs => v :: vs) (runCalls cs r1)
    | (r1, Except.error e) => (r1, Except.error e)

/-- The kinds of scratch destination. -/
inductive DestKind where
  | nullBool
  | nullFloat64
  | nullInt32
  | nullInt64
  | nullString
  | nullTime
  | passthrough
  | array
  deriving DecidableEq, Repr

/-- The kind of a scratch destination, its content left aside. -/
def Dest.kind : Dest → DestKind
  | Dest.nullBool _ => DestKind.nullBool
  | Dest.nullFloat64 _ => DestKind.nullFloat64
  | Dest.nullInt32 _ => DestKind.nullInt32
  | Dest.nullInt64 _ => DestKind.nullInt64
  | Dest.nullString _ => DestKind.nullString
  | Dest.nullTime _ => DestKind.nullTime
  | Dest.passthrough _ => DestKind.passthrough
  | Dest.array _ => DestKind.array

/-- Statement side: the kind of scratch destination `ScanInto` reads for a
destination of one of the thirteen pointer types; `none` for any other. -/
def DestArg.wants : DestArg → Option DestKind
  | DestArg.ptrBool => some DestKind.nullBool
  | DestArg.ptrNullBool => some DestKind.nullBool
  | DestArg.ptrFloat64 => some DestKind.nullFloat64
  | DestArg.ptrNullFloat64 => some DestKind.nullFloat64
  | DestArg.ptrInt => some DestKind.nullInt64
  | DestArg.ptrInt32 => some DestKind.nullInt32
  | DestArg.ptrNullInt32 => some DestKind.nullInt32
  | DestArg.ptrInt64 => some DestKind.nullInt64
  | DestArg.ptrNullInt64 => some DestKind.nullInt64
  | DestArg.ptrString => some DestKind.nullString
  | DestArg.ptrNullString => some DestKind.nullString
  | DestArg.ptrTime => some DestKind.nullTime
  | DestArg.ptrNullTime => some DestKind.nullTime
  | DestArg.other _ => none

/-- Statement side: what `ScanInto` is to store through a pointer of one of
the thirteen types when the scratch destination of its column is `d`. -/
def DestArg.expected : DestArg → Dest → Option Written
  | DestArg.ptrBool, Dest.nullBool v => some (Written.bool v.Bool)
  | DestArg.ptrNullBool, Dest.nullBool v => some (Written.nullBool v)
  | DestArg.ptrFloat64, Dest.nullFloat64 v => some (Written.float64 v.Float64)
  | DestArg.ptrNullFloat64, Dest.nullFloat64 v => some (Written.nullFloat64 v)
  | DestArg.ptrInt, Dest.nullInt64 v => some (Written.int (intOfInt64 v.Int64))
  | DestArg.ptrInt32, Dest.nullInt32 v => some (Written.int32 v.Int32)
  | DestArg.ptrNullInt32, Dest.nullInt32 v => some (Written.nullInt32 v)
  | DestArg.ptrInt64, Dest.nullInt64 v => some (Written.int64 v.Int64)
  | DestArg.ptrNullInt64, Dest.nullInt64 v => some (Written.nullInt64 v)
  | DestArg.ptrString, Dest.nullString v => some (Written.string v.String)
  | DestArg.ptrNullString, Dest.nullString v => some (Written.nullString v)
  | DestArg.ptrTime, Dest.nullTime v => some (Written.time v.Time)
  | DestArg.ptrNullTime, Dest.nullTime v => some (Written.nullTime v)
  | _, _ => none

/-- Statement side: the kind of scratch destination a typed accessor call asks
for; `none` for `ScanArray` and for `ScanInto` with a generic destination. -/
def Call.wants : Call → Option DestKind
  | Call.ScanInto dest _ _ => dest.wants
  | Call.ScanArray _ _ _ => none
  | Call.Bool _ => some DestKind.nullBool
  | Call.BoolValid _ => some DestKind.nullBool
  | Call.NullBool _ => some DestKind.nullBool
  | Call.Float64 _ => some DestKind.nullFloat64
  | Call.Float64Valid _ => some DestKind.nullFloat64
  | Call.NullFloat64 _ => some DestKind.nullFloat64
  | Call.RowFloat64 _ => some DestKind.nullFloat64
  | Call.RowFloat64Valid _ => some DestKind.nullFloat64
  | Call.RowNullFloat64 _ => some DestKind.nullFloat64
  | Call.Int _ => some DestKind.nullInt64
  | Call.IntValid _ => some DestKind.nullInt64
  | Call.RowInt _ => some DestKind.nullInt64
  | Call.RowIntValid _ => some DestKind.nullInt64
  | Call.Int64 _ => some DestKind.nullInt64
  | Call.Int64Valid _ => some DestKind.nullInt64
  | Call.NullInt64 _ => some DestKind.nullInt64
  | Call.RowInt64 _ => some DestKind.nullInt64
  | Call.RowInt64Valid _ => some DestKind.nullInt64
  | Call.RowNullInt64 _ => some DestKind.nullInt64
  | Call.String _ => some DestKind.nullString
  | Call.StringValid _ => some DestKind.nullString
  | Call.NullString _ => some DestKind.nullString
  | Call.RowString _ => some DestKind.nullString
  | Call.RowStringValid _ => some DestKind.nullString
  | Call.RowNullString _ => some DestKind.nullString
  | Call.Time _ => some DestKind.nullTime
  | Call.TimeValid _ => some DestKind.nullTime
  | Call.NullTime _ => some DestKind.nullTime
  | Call.RowTime _ => some DestKind.nullTime
  | Call.RowTimeValid _ => some DestKind.nullTime
  | Call.RowNullTime _ => some DestKind.nullTime

/-- The content of a scratch destination of kind NullBool. -/
def Dest.nullBool? : Dest → Option NullBool
  | Dest.nullBool v => some v
  | _ => none

/-- The content of a scratch destination of kind NullFloat64. -/
def Dest.nullFloat64? : Dest → Option NullFloat64
  | Dest.nullFloat64 v => some v
  | _ => none

/-- The content of a scratch destination of kind NullInt64. -/
def Dest.nullInt64? : Dest → Option NullInt64
  | Dest.nullInt64 v => some v
  | _ => none

/-- The content of a scratch destination of kind NullString. -/
def Dest.nullString? : Dest → Option NullString
  | Dest.nullString v => some v
  | _ => none

/-- The content of a scratch destination of kind NullTime. -/
def Dest.nullTime? : Dest → Option NullTime
  | Dest.nullTime v => some v
  | _ => none

/-- Statement side: what a typed accessor is to return when the scratch
destination of its column is `d`: the content of `d`, its value component, or its
non-NULL flag. -/
def Call.expected : Call → Dest → Option Val
  | Call.ScanInto dest _ _, d => (dest.expected d).map fun w => Val.stored (some w)
  | Call.ScanArray _ _ _, _ => none
  | Call.Bool _, d => d.nullBool?.map fun v => Val.bool (v.Bool)
  | Call.BoolValid _, d => d.nullBool?.map fun v => Val.bool (v.Valid)
  | Call.NullBool _, d => d.nullBool?.map fun v => Val.nullBool (v)
  | Call.Float64 _, d => d.nullFloat64?.map fun v => Val.float64 (v.Float64)
  | Call.Float64Valid _, d => d.nullFloat64?.map fun v => Val.bool (v.Valid)
  | Call.NullFloat64 _, d => d.nullFloat64?.map fun v => Val.nullFloat64 (v)
  | Call.RowFloat64 _, d => d.nullFloat64?.map fun v => Val.float64 (v.Float64)
  | Call.RowFloat64Valid _, d => d.nullFloat64?.map fun v => Val.bool (v.Valid)
  | Call.RowNullFloat64 _, d => d.nullFloat64?.map fun v => Val.nullFloat64 (v)
  | Call.Int _, d => d.nullInt64?.map fun v => Val.int (intOfInt64 v.Int64)
  | Call.IntValid _, d => d.nullInt64?.map fun v => Val.bool (v.Valid)
  | Call.RowInt _, d => d.nullInt64?.map fun v => Val.int (intOfInt64 v.Int64)
  | Call.RowIntValid _, d => d.nullInt64?.map fun v => Val.bool (v.Valid)
  | Call.Int64 _, d => d.nullInt64?.map fun v => Val.int64 (v.Int64)
  | Call.Int64Valid _, d => d.nullInt64?.map fun v => Val.bool (v.Valid)
  | Call.NullInt64 _, d => d.nullInt64?.map fun v => Val.nullInt64 (v)
  | Call.RowInt64 _, d => d.nullInt64?.map fun v => Val.int64 (v.Int64)
  | Call.RowInt64Valid _, d => d.nullInt64?.map fun v => Val.bool (v.Valid)
  | Call.RowNullInt64 _, d => d.nullInt64?.map fun v => Val.nullInt64 (v)
  | Call.String _, d => d.nullString?.map fun v => Val.string (v.String)
  | Call.StringValid _, d => d.nullString?.map fun v => Val.bool (v.Valid)
  | Call.NullString _, d => d.nullString?.map fun v => Val.nullString (v)
  | Call.RowString _, d => d.nullString?.map fun v => Val.string (v.String)
  | Call.RowStringValid _, d => d.nullString?.map fun v => Val.bool (v.Valid)
  | Call.RowNullString _, d => d.nullString?.map fun v => Val.nullString (v)
  | Call.Time _, d => d.nullTime?.map fun v => Val.time (v.Time)
  | Call.TimeValid _, d => d.nullTime?.map fun v => Val.bool (v.Valid)
  | Call.NullTime _, d => d.nullTime?.map fun v => Val.nullTime (v)
  | Call.RowTime _, d => d.nullTime?.map fun v => Val.time (v.Time)
  | Call.RowTimeValid _, d => d.nullTime?.map fun v => Val.bool (v.Valid)
  | Call.RowNullTime _, d => d.nullTime?.map fun v => Val.nullTime (v)

/-- Statement side: the zero value of the result type of an accessor, which a
call returns in discovery mode (`ScanInto` and `ScanArray` store nothing). -/
def Call.zero : Call → Val
  | Call.ScanInto _ _ _ => Val.stored none
  | Call.ScanArray _ _ _ => Val.array none
  | Call.Bool _ => Val.bool false
  | Call.BoolValid _ => Val.bool false
  | Call.NullBool _ => Val.nullBool ⟨false, false⟩
  | Call.Float64 _ => Val.float64 ⟨0⟩
  | Call.Float64Valid _ => Val.bool false
  | Call.NullFloat64 _ => Val.nullFloat64 ⟨⟨0⟩, false⟩
  | Call.RowFloat64 _ => Val.float64 ⟨0⟩
  | Call.RowFloat64Valid _ => Val.bool false
  | Call.RowNullFloat64 _ => Val.nullFloat64 ⟨⟨0⟩, false⟩
  | Call.Int _ => Val.int 0
  | Call.IntValid _ => Val.bool false
  | Call.RowInt _ => Val.int 0
  | Call.RowIntValid _ => Val.bool false
  | Call.Int64 _ => Val.int64 0
  | Call.Int64Valid _ => Val.bool false
  | Call.NullInt64 _ => Val.nullInt64 ⟨0, false⟩
  | Call.RowInt64 _ => Val.int64 0
  | Call.RowInt64Valid _ => Val.bool false
  | Call.RowNullInt64 _ => Val.nullInt64 ⟨0, false⟩
  | Call.String _ => Val.string ""
  | Call.StringValid _ => Val.bool false
  | Call.NullString _ => Val.nullString ⟨"", false⟩
  | Call.RowString _ => Val.string ""
  | Call.RowStringValid _ => Val.bool false
  | Call.RowNullString _ => Val.nullString ⟨"", false⟩
  | Call.Time _ => Val.time ⟨0⟩
  | Call.TimeValid _ => Val.bool false
  | Call.NullTime _ => Val.nullTime ⟨⟨0⟩, false⟩
  | Call.RowTime _ => Val.time ⟨0⟩
  | Call.RowTimeValid _ => Val.bool false
  | Call.RowNullTime _ => Val.nullTime ⟨⟨0⟩, false⟩

/-- The Row a discovery pass starts from: no cursor, nothing declared. -/
def emptyRow : Row :=
  { rows := none, index := 0, fields := [], dest := [], tmpdest := [] }

/-- A cursor whose driver stores the integer `7` through every destination. -/
def sevenRows : Rows :=
  { Scan := fun _ => Except.ok fun _ => DriverValue.value (GoValue.int 7) }

/-- A Row in extraction mode at position 1 of three scanned columns: an int64,
a caller's own destination and a string. -/
def threeColumnRow : Row :=
  { rows := some sevenRows
    index := 1
    fields := [Field.named "id", Field.named "tags", Field.named "email"]
    dest := [Dest.nullInt64 ⟨42, true⟩, Dest.passthrough (DestArg.other 5),
      Dest.nullString ⟨"a@example.com", true⟩]
    tmpdest := [] }

/-- A column mapper that collects the one row `(1, 2)`. -/
def oneRowMapper : ColumnMapperFunc :=
  fun col => Except.ok { col with rowValues := col.rowValues ++ [[GoValue.int 1, GoValue.int 2]] }

/-- The variables of one call `q.AppendSQL(buf, &args, nil)`: `caller` is the
query the method is called on, `q` the receiver parameter of the method, `buf`
the text of the buffer and `args` the argument list. -/
structure AppendSQLVars where
  caller : ValuesQuery
  q : ValuesQuery
  buf : String
  args : List GoValue

/-- The method `AppendSQL` run statement by statement on the variables of its
call, with the panic of the mapper if there is one. The receiver is declared
`(q ValuesQuery)`, so on entry `q` is a copy of the caller's query; lines 38-42
assign `q.RowValues`, lines 44-45 write into the buffer and the argument list,
lines 46-50 replace the text of the buffer by its translation. -/
def ValuesQuery.AppendSQLRun (caller : ValuesQuery) (buf : String) (args : List GoValue) :
    AppendSQLVars × Except GoValue Unit :=
  let v0 : AppendSQLVars := { caller := caller, q := caller, buf := buf, args := args }
  let afterMapper : AppendSQLVars × Except GoValue Unit :=
    match v0.q.ColumnMapper with
    | some mapper =>
      match mapper { mode := colmode.colmodeInsert, rowValues := [] } with
      | Except.ok col =>
        ({ v0 with q := { v0.q with RowValues := col.rowValues } }, Except.ok ())
      | Except.error r => (v0, Except.error r)
    | none => (v0, Except.ok ())
  match afterMapper with
  | (v1, Except.error r) => (v1, Except.error r)
  | (v1, Except.ok _) =>
    let v2 : AppendSQLVars := { v1 with buf := v1.buf ++ "VALUES " }
    let res := sq.RowValues.AppendSQL v2.q.RowValues v2.buf v2.args
    let v3 : AppendSQLVars := { v2 with buf := res.1, args := res.2 }
    if !v3.q.nested then
      ({ v3 with buf := questionToDollarPlaceholders "" v3.buf }, Except.ok ())
    else
      (v3, Except.ok ())

/-- What the caller of `AppendSQL` has after the call: the text and the
arguments, or the panic. -/
def AppendSQLVars.outcome (res : AppendSQLVars × Except GoValue Unit) :
    Except GoValue (String × List GoValue) :=
  res.2.map fun _ => (res.1.buf, res.1.args)

/-- Two calls of `AppendSQL` one after the other, each with a fresh empty buffer
and argument list: the second call is made on the caller's query as the first
call left it. The result is the caller's query after both calls and the
outcomes of the first and of the second call. -/
def renderTwice (q : ValuesQuery) :
    ValuesQuery × Except GoValue (String × List GoValue) ×
      Except GoValue (String × List GoValue) :=
  let first := q.AppendSQLRun "" []
  let second := first.1.caller.AppendSQLRun "" []
  (second.1.caller, AppendSQLVars.outcome first, AppendSQLVars.outcome second)

/-- Statement side: every entry of the rescan list is the discard target, as
for the nil list of a new Row and after every call that returns. -/
def Row.tmpdestDiscards (r : Row) : Prop :=
  ∀ t ∈ r.tmpdest, t = Target.nothing

/-- The list `ScanInto` and `ScanArray` hand to the driver's `Scan`: the rescan
list with `target` at the position (lines 102-108 and 128-134). -/
def Row.scanList (r : Row) (target : Target) : List Target :=
  r.rescanTargets.set r.index target

/-- A cursor whose driver fails every scan with the same error. -/
def failingRows : Rows :=
  { Scan := fun _ => Except.error (GoError.message "sql: Scan error on column index 1") }

/-- The Row `threeColumnRow` on the cursor `failingRows`. -/
def threeColumnFailingRow : Row :=
  { threeColumnRow with rows := some failingRows }

/-- A Row in extraction mode at position 0 of two scanned int64 columns, the
first 5 and non-NULL, the second NULL. -/
def twoInt64Row : Row :=
  { rows := some sevenRows
    index := 0
    fields := [Field.named "id", Field.named "id"]
    dest := [Dest.nullInt64 ⟨5, true⟩, Dest.nullInt64 ⟨0, false⟩]
    tmpdest := [] }

end sq

/-! ## cmd/sqgen-mysql/tables.go -/

namespace strings

/-- Go `strings.HasPrefix(s, pfx)`. -/
def HasPrefix (s pfx : String) : Bool :=
  pfx.data.isPrefixOf s.data

/-- Go `strings.TrimPrefix(s, pfx)`: `s` without the leading `pfx`, at most once. -/
def TrimPrefix (s pfx : String) : String :=
  if HasPrefix s pfx then ⟨s.data.drop pfx.data.length⟩ else s

/-- Go `strings.ReplaceAll(s, old, new)` for one-character `old` and `new`, as
at its only call. -/
def ReplaceAll (s : String) (old new : Char) : String :=
  ⟨s.data.map fun c => if c = old then new else c⟩

/-- Go `strings.ToUpper(s)` on ASCII text: the letters `a`-`z` become `A`-`Z`;
characters beyond ASCII are kept as they are here. -/
def ToUpper (s : String) : String :=
  ⟨s.data.map Char.toUpper⟩

end strings

namespace sqgen

/-- Constant `FieldTypeBoolean`. -/
def FieldTypeBoolean : String := "sq.BooleanField"

/-- Constant `FieldTypeJSON`. -/
def FieldTypeJSON : String := "sq.JSONField"

/-- Constant `FieldTypeNumber`. -/
def FieldTypeNumber : String := "sq.NumberField"

/-- Constant `FieldTypeString`. -/
def FieldTypeString : String := "sq.StringField"

/-- Constant `FieldTypeTime`. -/
def FieldTypeTime : String := "sq.TimeField"

/-- Constant `FieldTypeEnum`. -/
def FieldTypeEnum : String := "sq.EnumField"

/-- Constant `FieldTypeBinary`. -/
def FieldTypeBinary : String := "sq.BinaryField"

/-- Constant `FieldConstructorBoolean`. -/
def FieldConstructorBoolean : String := "sq.NewBooleanField"

/-- Constant `FieldConstructorJSON`. -/
def FieldConstructorJSON : String := "sq.NewJSONField"

/-- Constant `FieldConstructorNumber`. -/
def FieldConstructorNumber : String := "sq.NewNumberField"

/-- Constant `FieldConstructorString`. -/
def FieldConstructorString : String := "sq.NewStringField"

/-- Constant `FieldConstructorTime`. -/
def FieldConstructorTime : String := "sq.NewTimeField"

/-- Constant `FieldConstructorEnum`. -/
def FieldConstructorEnum : String := "sq.NewEnumField"

/-- Constant `FieldConstructorBinary`. -/
def FieldConstructorBinary : String := "sq.NewBinaryField"

/-- TableField represents a field in a database table. The Go field `Type` is
`Type_` here, `Type` being reserved; the Go type `String` of `Name` is a string. -/
structure TableField where
  Name : String
  RawType : String
  RawTypeEx : String
  Type_ : String
  Constructor : String
  deriving DecidableEq, Repr

/-- Export will make the string follow Go's export rules. -/
def String.Export (s : String) : String :=
  let str := strings.TrimPrefix s "_"
  let str := strings.ReplaceAll str ' ' '_'
  let str := strings.ToUpper str
  str

/-- fillInTheBlanks will fill in the .Type and .Constructor for a field based on
the field's .RawType. -/
def TableField.fillInTheBlanks (field : TableField) : TableField :=
  if field.RawTypeEx = "tinyint(1)" then
    { field with Type_ := FieldTypeBoolean, Constructor := FieldConstructorBoolean }
  else if strings.HasPrefix field.RawType "json" then
    { field with Type_ := FieldTypeJSON, Constructor := FieldConstructorJSON }
  else if field.RawType ∈ ["decimal", "numeric", "float", "double", "integer", "int",
      "smallint", "tinyint", "mediumint", "bigint"] then
    { field with Type_ := FieldTypeNumber, Constructor := FieldConstructorNumber }
  else if field.RawType ∈ ["tinytext", "text", "mediumtext", "longtext", "char", "varchar"] then
    { field with Type_ := FieldTypeString, Constructor := FieldConstructorString }
  else if field.RawType ∈ ["date", "time", "datetime", "timestamp"] then
    { field with Type_ := FieldTypeTime, Constructor := FieldConstructorTime }
  else if field.RawType ∈ ["enum"] then
    { field with Type_ := FieldTypeEnum, Constructor := FieldConstructorEnum }
  else if field.RawType ∈ ["binary", "varbinary", "tinyblob", "blob", "mediumblob",
      "longblob"] then
    { field with Type_ := FieldTypeBinary, Constructor := FieldConstructorBinary }
  else
    field

/-- The field `getTables` builds for one column (lines 258-262): Name, RawType
and RawTypeEx come from the row read, Type and Constructor are left empty. -/
def getTablesField (columnName columnType columnTypeEx : String) : TableField :=
  { Name := columnName, RawType := columnType, RawTypeEx := columnTypeEx,
    Type_ := "", Constructor := "" }

/-- Statement side: the raw type of the field is one `fillInTheBlanks` knows,
that is, one of its cases applies. -/
def TableField.recognised (f : TableField) : Prop :=
  f.RawTypeEx = "tinyint(1)" ∨ strings.HasPrefix f.RawType "json" = true ∨
    f.RawType ∈ ["decimal", "numeric", "float", "double", "integer", "int", "smallint",
      "tinyint", "mediumint", "bigint", "tinytext", "text", "mediumtext", "longtext", "char",
      "varchar", "date", "time", "datetime", "timestamp", "enum", "binary", "varbinary",
      "tinyblob", "blob", "mediumblob", "longblob"]

/-- Statement side: the pairs of a field kind and its constructor, and the pair
of two empty strings of a field left blank. -/
def filledPairs : List (String × String) :=
  [("", ""),
    (FieldTypeBoolean, FieldConstructorBoolean),
    (FieldTypeJSON, FieldConstructorJSON),
    (FieldTypeNumber, FieldConstructorNumber),
    (FieldTypeString, FieldConstructorString),
    (FieldTypeTime, FieldConstructorTime),
    (FieldTypeEnum, FieldConstructorEnum),
    (FieldTypeBinary, FieldConstructorBinary)]

/-- Statement side: `g` is `f` with its blanks filled in well: the Type of `g`
is empty or one of the seven field kinds, its Constructor is the constructor of
that same kind (empty exactly when the Type is), and Name, RawType and RawTypeEx
are those of `f`. -/
def TableField.wellFilled (f g : TableField) : Prop :=
  (g.Type_, g.Constructor) ∈ filledPairs ∧
    g.Name = f.Name ∧ g.RawType = f.RawType ∧ g.RawTypeEx = f.RawTypeEx

instance (f g : TableField) : Decidable (TableField.wellFilled f g) := by
  unfold TableField.wellFilled
  infer_instance

/-- Statement side: an exported Go identifier made of ASCII characters: it
begins with an upper-case letter and holds only letters, digits and underscores. -/
def isExportedIdentifier (s : String) : Bool :=
  match s.data with
  | [] => false
  | c :: cs => c.isUpper && cs.all fun x => x.isAlphanum || x = '_'

/-- Table represents a database table. The Go type `String` of `Name`,
`StructName` and `Constructor` is a string. -/
structure Table where
  Schema : String
  Name : String
  StructName : String
  RawType : String
  Constructor : String
  Fields : List TableField
  deriving DecidableEq, Repr

/-- The first loop of `processTables`: the map `tableNames` that counts how
many times a table name appears, a missing key reading as zero. -/
def countTableNames (tables : List Table) : String → Nat :=
  tables.foldl (fun tableNames t => fun name =>
    if name = t.Name then tableNames name + 1 else tableNames name) (fun _ => 0)

/-- The inner loop of `processTables` over the fields of one table: each field
is processed with `fillInTheBlanks` and appended unless its Type is empty (the
message printed for a skipped field is left out). -/
def processFields (tableFields : List TableField) : List TableField :=
  tableFields.foldl (fun fields f =>
    let field := f.fillInTheBlanks
    if field.Type_ = "" then fields else fields ++ [field]) []

/-- The body of the second loop of `processTables` for the table `t`. -/
def processTable (tableNames : String → Nat) (t : Table) : Table :=
  let schema := t.Schema
  let name := t.Name
  let t1 : Table := { t with StructName := "TABLE_" }
  let t2 : Table := if t1.RawType = "VIEW" then { t1 with StructName := "VIEW_" } else t1
  let t3 : Table :=
    if tableNames name > 1 then
      { t2 with
        StructName := t2.StructName ++ strings.ToUpper (schema ++ "__"),
        Constructor := t2.Constructor ++ strings.ToUpper (schema ++ "__") }
    else t2
  let t4 : Table :=
    { t3 with
      StructName := t3.StructName ++ strings.ToUpper name,
      Constructor := t3.Constructor ++ strings.ToUpper name }
  { t4 with Fields := processFields t4.Fields }

/-- The function `processTables`: the names are counted over all the tables,
then every table is processed in place, in order. -/
def processTables (tables : List Table) : List Table :=
  tables.map (processTable (countTableNames tables))

/-- Two tables of one schema whose names differ in case only. -/
def caseTables : List Table :=
  [⟨"shop", "Users", "", "BASE TABLE", "", []⟩, ⟨"shop", "users", "", "BASE TABLE", "", []⟩]

/-- Three tables without a lower-case letter: `B__C` in schema `A`, and `C` in
the schemas `B` and `Z`. -/
def underscoreTables : List Table :=
  [⟨"A", "B__C", "", "BASE TABLE", "", []⟩, ⟨"B", "C", "", "BASE TABLE", "", []⟩,
    ⟨"Z", "C", "", "BASE TABLE", "", []⟩]

/-- A table with four columns, one of them of a raw type that is not known. -/
def ordersTable : Table :=
  ⟨"shop", "orders", "", "BASE TABLE", "",
    [⟨"id", "int", "int(11)", "", ""⟩, ⟨"shape", "geometry", "geometry", "", ""⟩,
      ⟨"paid", "tinyint", "tinyint(1)", "", ""⟩, ⟨"note", "text", "text", "", ""⟩]⟩

end sqgen

namespace sq

/-! ## Theorems -/

/-! ### Rendering of rows -/

theorem intercalate_go_append (a acc s : String) (l : List String) :
    String.intercalate.go (a ++ acc) s l = a ++ String.intercalate.go acc s l := by
  induction l generalizing acc with
  | nil => simp [String.intercalate.go]
  | cons x xs ih => simp [String.intercalate.go, ← ih, String.append_assoc]

theorem intercalate_go_eq (acc s : String) (x : String) (l : List String) :
    String.intercalate.go acc s (x :: l) = acc ++ s ++ s.intercalate (x :: l) := by
  simp only [String.intercalate, String.intercalate.go]
  rw [← intercalate_go_append]

theorem appendValues_false (vs : RowValue) (buf : String) (args : List GoValue) :
    RowValue.appendValues false vs buf args =
      (String.intercalate.go buf ", " (List.replicate vs.length "?"), args ++ vs) := by
  induction vs generalizing buf args with
  | nil => simp [RowValue.appendValues, String.intercalate.go]
  | cons v vs ih =>
    simp [RowValue.appendValues, ih, List.replicate_succ, String.intercalate.go]

theorem RowValue_AppendSQL_eq (r : RowValue) (buf : String) (args : List GoValue) :
    RowValue.AppendSQL r buf args = (buf ++ questionRow r.length, args ++ r) := by
  cases r with
  | nil =>
    simp [RowValue.AppendSQL, RowValue.appendValues, questionRow, String.intercalate,
      String.append_assoc]
  | cons v vs =>
    simp only [RowValue.AppendSQL, RowValue.appendValues, appendValues_false, questionRow,
      List.length_cons, List.replicate_succ, String.intercalate, if_true]
    rw [intercalate_go_append]
    simp [String.append_assoc]

theorem appendRows_false (rs : RowValues) (buf : String) (args : List GoValue) :
    RowValues.appendRows false rs buf args =
      (String.intercalate.go buf ", " (rs.map fun r => questionRow r.length),
        args ++ rs.flatten) := by
  induction rs generalizing buf args with
  | nil => simp [RowValues.appendRows, String.intercalate.go]
  | cons r rs ih =>
    simp [RowValues.appendRows, ih, RowValue_AppendSQL_eq, String.intercalate.go,
      String.append_assoc]

theorem RowValues_AppendSQL_eq (rs : RowValues) (buf : String) (args : List GoValue) :
    RowValues.AppendSQL rs buf args =
      (buf ++ ", ".intercalate (rs.map fun r => questionRow r.length), args ++ rs.flatten) := by
  cases rs with
  | nil => simp [RowValues.AppendSQL, RowValues.appendRows, String.intercalate]
  | cons r rs =>
    simp only [RowValues.AppendSQL, RowValues.appendRows, appendRows_false,
      RowValue_AppendSQL_eq, List.map_cons, String.intercalate, if_true]
    rw [intercalate_go_append]
    simp

/-! ### Placeholder translation -/

theorem questionToDollarFrom_append (i : Nat) (a b : List Char) :
    questionToDollarFrom i (a ++ b) =
      questionToDollarFrom i a ++ questionToDollarFrom (i + a.count '?') b := by
  induction a generalizing i with
  | nil => simp [questionToDollarFrom]
  | cons c cs ih =>
    by_cases hc : c = '?'
    · subst hc
      simp [questionToDollarFrom, ih, Nat.add_assoc, Nat.add_comm 1]
    · have hc2 : ¬ ('?' = c) := fun h => hc h.symm
      simp [questionToDollarFrom, ih, hc, List.count_cons, hc2]

theorem translateFrom_append (i : Nat) (a b : String) :
    translateFrom i (a ++ b) = translateFrom i a ++ translateFrom (i + questionCount a) b := by
  apply String.ext
  simp [translateFrom, questionCount, questionToDollarFrom_append]

theorem questionCount_append (a b : String) :
    questionCount (a ++ b) = questionCount a + questionCount b := by
  simp [questionCount]

theorem questionToDollarFrom_of_count_eq_zero (i : Nat) (a : List Char)
    (h : a.count '?' = 0) : questionToDollarFrom i a = a := by
  induction a with
  | nil => rfl
  | cons c cs ih =>
    by_cases hc : c = '?'
    · subst hc
      simp at h
    · have hc2 : ¬ ('?' = c) := fun h => hc h.symm
      simp [List.count_cons, hc2] at h
      simp [questionToDollarFrom, hc, ih h]

theorem translateFrom_of_questionCount_eq_zero (i : Nat) (a : String)
    (h : questionCount a = 0) : translateFrom i a = a := by
  apply String.ext
  simp [translateFrom, questionToDollarFrom_of_count_eq_zero i a.data h]

theorem translateFrom_intercalate_go (i : Nat) (acc : String) (l : List String) :
    translateFrom i (String.intercalate.go acc ", " l) =
      String.intercalate.go (translateFrom i acc) ", " (translateList (i + questionCount acc) l) := by
  induction l generalizing acc with
  | nil => simp [String.intercalate.go, translateList]
  | cons a as ih =>
    have h0 : questionCount ", " = 0 := by decide
    have h1 : translateFrom (i + questionCount acc) ", " = ", " :=
      translateFrom_of_questionCount_eq_zero _ _ h0
    simp [String.intercalate.go, translateList, ih, translateFrom_append, questionCount_append,
      h0, h1, Nat.add_assoc]

theorem questionCount_intercalate_go (acc : String) (l : List String) :
    questionCount (String.intercalate.go acc ", " l) =
      questionCount acc + (l.map questionCount).sum := by
  induction l generalizing acc with
  | nil => simp [String.intercalate.go]
  | cons a as ih =>
    have h0 : questionCount ", " = 0 := by decide
    simp [String.intercalate.go, ih, questionCount_append, h0, Nat.add_assoc]

theorem translateFrom_intercalate (i : Nat) (l : List String) :
    translateFrom i (", ".intercalate l) = ", ".intercalate (translateList i l) := by
  cases l with
  | nil => simp [String.intercalate, translateList, translateFrom, questionToDollarFrom]
  | cons a as => simp [String.intercalate, translateList, translateFrom_intercalate_go]

theorem questionCount_intercalate (l : List String) :
    questionCount (", ".intercalate l) = (l.map questionCount).sum := by
  cases l with
  | nil => simp [String.intercalate, questionCount]
  | cons a as => simp [String.intercalate, questionCount_intercalate_go]

theorem translateFrom_question (k : Nat) : translateFrom k "?" = dollarPlaceholder (k + 1) := by
  apply String.ext
  simp [translateFrom, questionToDollarFrom, dollarPlaceholder]

theorem translateList_replicate (k n : Nat) :
    translateList k (List.replicate n "?") =
      (List.range n).map fun j => dollarPlaceholder (k + j + 1) := by
  induction n generalizing k with
  | zero => simp [translateList]
  | succ n ih =>
    have h1 : questionCount "?" = 1 := by decide
    simp [List.replicate_succ, translateList, ih, List.range_succ_eq_map, translateFrom_question,
      h1, Nat.add_assoc, Nat.add_comm 1, Function.comp_def]

theorem sum_questionCount_replicate (n : Nat) :
    ((List.replicate n "?").map questionCount).sum = n := by
  have h1 : questionCount "?" = 1 := by decide
  simp [h1]

theorem translateFrom_questionRow (k n : Nat) :
    translateFrom k (questionRow n) = dollarRow k n := by
  have h0 : questionCount "(" = 0 := by decide
  have h1 : translateFrom k "(" = "(" := translateFrom_of_questionCount_eq_zero _ _ h0
  have h2 : ∀ j, translateFrom j ")" = ")" := fun j =>
    translateFrom_of_questionCount_eq_zero _ _ (by decide)
  simp [questionRow, dollarRow, translateFrom_append, translateFrom_intercalate,
    translateList_replicate, h0, h1, h2]

theorem questionCount_questionRow (n : Nat) : questionCount (questionRow n) = n := by
  have h0 : questionCount "(" = 0 := by decide
  have h1 : questionCount ")" = 0 := by decide
  have h2 : questionCount "?" = 1 := by decide
  simp [questionRow, questionCount_append, questionCount_intercalate, h0, h1, h2]

theorem translateList_questionRows (k : Nat) (rows : RowValues) :
    translateList k (rows.map fun r => questionRow r.length) = dollarRows k rows := by
  induction rows generalizing k with
  | nil => simp [translateList, dollarRows]
  | cons r rs ih =>
    simp [translateList, dollarRows, ih, translateFrom_questionRow, questionCount_questionRow]

theorem translateFrom_valuesTextQuestion (rows : RowValues) :
    translateFrom 0 (valuesTextQuestion rows) = valuesTextDollar rows := by
  have h0 : questionCount "VALUES " = 0 := by decide
  have h1 : translateFrom 0 "VALUES " = "VALUES " :=
    translateFrom_of_questionCount_eq_zero _ _ h0
  simp [valuesTextQuestion, valuesTextDollar, translateFrom_append, translateFrom_intercalate,
    translateList_questionRows, h0, h1]

theorem questionToDollarPlaceholders_empty (query : String) :
    questionToDollarPlaceholders "" query = translateFrom 0 query := by
  simp [questionToDollarPlaceholders, translateFrom]

/-! ### The VALUES query -/

theorem valuesChain_RowValues (q : ValuesQuery) (rows : RowValues) :
    (valuesChain q rows).RowValues = q.RowValues ++ rows ∧
      (valuesChain q rows).nested = q.nested ∧
      (valuesChain q rows).ColumnMapper = q.ColumnMapper := by
  induction rows generalizing q with
  | nil => simp [valuesChain]
  | cons r rs ih =>
    obtain ⟨a, b, c⟩ := ih (q.Values r)
    refine ⟨?_, ?_, ?_⟩
    · show (valuesChain (q.Values r) rs).RowValues = _
      rw [a]; simp [ValuesQuery.Values]
    · show (valuesChain (q.Values r) rs).nested = _
      rw [b]; rfl
    · show (valuesChain (q.Values r) rs).ColumnMapper = _
      rw [c]; rfl

theorem AppendSQL_of_mappedRowValues (q : ValuesQuery) (rows : RowValues)
    (h : q.mappedRowValues = Except.ok rows) (buf : String) (args : List GoValue) :
    q.AppendSQL buf args =
      Except.ok
        (if q.nested then buf ++ valuesTextQuestion rows
          else translateFrom 0 (buf ++ valuesTextQuestion rows), args ++ rows.flatten) := by
  cases hn : q.nested <;>
    simp [ValuesQuery.AppendSQL, h, hn, RowValues_AppendSQL_eq, valuesTextQuestion,
      questionToDollarPlaceholders_empty, String.append_assoc]

theorem AppendSQL_of_mapper_panic (q : ValuesQuery) (r : GoValue)
    (h : q.mappedRowValues = Except.error r) (buf : String) (args : List GoValue) :
    q.AppendSQL buf args = Except.error r := by
  simp [ValuesQuery.AppendSQL, h]

theorem mem_intercalate_go (c : Char) (acc s : String) (l : List String)
    (h : c ∈ (String.intercalate.go acc s l).data) :
    c ∈ acc.data ∨ c ∈ s.data ∨ ∃ x ∈ l, c ∈ x.data := by
  induction l generalizing acc with
  | nil => exact Or.inl (by simpa [String.intercalate.go] using h)
  | cons a as ih =>
    simp only [String.intercalate.go] at h
    rcases ih _ h with h1 | h1 | ⟨x, hx, h1⟩
    · simp only [String.data_append, List.mem_append] at h1
      rcases h1 with (h1 | h1) | h1
      · exact Or.inl h1
      · exact Or.inr (Or.inl h1)
      · exact Or.inr (Or.inr ⟨a, List.mem_cons_self _ _, h1⟩)
    · exact Or.inr (Or.inl h1)
    · exact Or.inr (Or.inr ⟨x, List.mem_cons_of_mem _ hx, h1⟩)

theorem mem_intercalate (c : Char) (s : String) (l : List String)
    (h : c ∈ (s.intercalate l).data) : c ∈ s.data ∨ ∃ x ∈ l, c ∈ x.data := by
  cases l with
  | nil => simp [String.intercalate] at h
  | cons a as =>
    simp only [String.intercalate] at h
    rcases mem_intercalate_go c a s as h with h1 | h1 | ⟨x, hx, h1⟩
    · exact Or.inr ⟨a, List.mem_cons_self _ _, h1⟩
    · exact Or.inl h1
    · exact Or.inr ⟨x, List.mem_cons_of_mem _ hx, h1⟩

theorem dollar_not_mem_questionRow (n : Nat) : '$' ∉ (questionRow n).data := by
  intro h
  simp only [questionRow, String.data_append, List.mem_append] at h
  rcases h with (h | h) | h
  · revert h; decide
  · rcases mem_intercalate _ _ _ h with h1 | ⟨x, hx, h1⟩
    · revert h1; decide
    · rw [List.eq_of_mem_replicate hx] at h1
      revert h1; decide
  · revert h; decide

theorem dollar_not_mem_valuesTextQuestion (rows : RowValues) :
    '$' ∉ (valuesTextQuestion rows).data := by
  intro h
  simp only [valuesTextQuestion, String.data_append, List.mem_append] at h
  rcases h with h | h
  · revert h; decide
  · rcases mem_intercalate _ _ _ h with h1 | ⟨x, hx, h1⟩
    · revert h1; decide
    · simp only [List.mem_map] at hx
      obtain ⟨r, _, rfl⟩ := hx
      exact dollar_not_mem_questionRow _ h1

/-- C1: for every list of rows of literal values added with `Values` (no
ColumnMapper, not nested), `ToSQL` returns the text `VALUES ` followed by the
rows joined by `, `, each row `(` + its placeholders joined by `, ` + `)`, the
placeholders being `$1`, ..., `$N` numbered consecutively across the rows, and
the arguments are the concatenation of the rows in order, of length `N`, the
total number of values; the two rows of the test give
`VALUES ($1, $2), ($3, $4)` and the four strings. -/
theorem C1_ToSQL_values (rows : RowValues) :
    (valuesChain Values rows).ToSQL = (valuesTextDollar rows, rows.flatten) ∧
      (valuesChain Values rows).ToSQL.2.length = (rows.map List.length).sum ∧
      ((Values.Values [GoValue.str "aaa", GoValue.str "aaa@example.com"]).Values
          [GoValue.str "bbb", GoValue.str "bbb@example.com"]).ToSQL =
        ("VALUES ($1, $2), ($3, $4)",
          [GoValue.str "aaa", GoValue.str "aaa@example.com", GoValue.str "bbb",
            GoValue.str "bbb@example.com"]) := by
  obtain ⟨h1, h2, h3⟩ := valuesChain_RowValues Values rows
  have hm : (valuesChain Values rows).mappedRowValues = Except.ok rows := by
    unfold ValuesQuery.mappedRowValues
    rw [h3, h1]
    simp [Values]
  have hn : (valuesChain Values rows).nested = false := by rw [h2]; rfl
  have h := AppendSQL_of_mappedRowValues _ rows hm "" []
  have hT : (valuesChain Values rows).ToSQL = (valuesTextDollar rows, rows.flatten) := by
    simp [ValuesQuery.ToSQL, h, hn, translateFrom_valuesTextQuestion]
  refine ⟨hT, ?_, ?_⟩
  · simp [hT, List.length_flatten]
  · have h4 := AppendSQL_of_mappedRowValues
      ((Values.Values [GoValue.str "aaa", GoValue.str "aaa@example.com"]).Values
          [GoValue.str "bbb", GoValue.str "bbb@example.com"])
      [[GoValue.str "aaa", GoValue.str "aaa@example.com"],
        [GoValue.str "bbb", GoValue.str "bbb@example.com"]] rfl "" []
    rw [ValuesQuery.ToSQL, h4]
    simp only [ValuesQuery.Values, Values, Bool.false_eq_true, if_false, String.empty_append,
      translateFrom_valuesTextQuestion]
    decide

/-- C3: when the ColumnMapper of a ValuesQuery panics with payload `r`,
`AppendSQL` propagates the panic unchanged, whatever buffer and argument list it
is given, while `ToSQL` returns normally and its argument list carries `r`. -/
theorem C3_ToSQL_recovers (q : ValuesQuery) (mapper : ColumnMapperFunc) (r : GoValue)
    (hq : q.ColumnMapper = some mapper)
    (hp : mapper { mode := colmode.colmodeInsert, rowValues := [] } = Except.error r) :
    (∀ buf args, q.AppendSQL buf args = Except.error r) ∧
      (∃ query, q.ToSQL = (query, [r])) := by
  have hm : q.mappedRowValues = Except.error r := by
    simp [ValuesQuery.mappedRowValues, hq, hp]
  refine ⟨fun buf args => AppendSQL_of_mapper_panic q r hm buf args, "", ?_⟩
  simp [ValuesQuery.ToSQL, AppendSQL_of_mapper_panic q r hm]

theorem C3_ToSQL_recovers_witness :
    (∀ buf args,
        (Values.Valuesx (some fun _ => Except.error (GoValue.str "bad state"))).AppendSQL buf args =
          Except.error (GoValue.str "bad state")) ∧
      (∃ query,
        (Values.Valuesx (some fun _ => Except.error (GoValue.str "bad state"))).ToSQL =
          (query, [GoValue.str "bad state"])) :=
  C3_ToSQL_recovers (Values.Valuesx (some fun _ => Except.error (GoValue.str "bad state")))
    (fun _ => Except.error (GoValue.str "bad state")) (GoValue.str "bad state") rfl rfl

/-- C4: a ValuesQuery marked nested with `NestThis` renders the neutral
placeholders verbatim, whatever their number: for the rows `rows` it renders
(its own, or those of its mapper) the text is `VALUES ` followed by the rows of
`?` placeholders, it holds no `$`, and the argument list is the one the
un-nested query produces. -/
theorem C4_NestThis_neutral (q : ValuesQuery) (rows : RowValues)
    (h : q.mappedRowValues = Except.ok rows) :
    q.NestThis.AppendSQL "" [] = Except.ok (valuesTextQuestion rows, rows.flatten) ∧
      q.NestThis.ToSQL = (valuesTextQuestion rows, rows.flatten) ∧
      '$' ∉ (valuesTextQuestion rows).data ∧
      ({ q with nested := false } : ValuesQuery).ToSQL.2 = q.NestThis.ToSQL.2 := by
  have hN : q.NestThis.mappedRowValues = Except.ok rows := by
    simpa [ValuesQuery.mappedRowValues, ValuesQuery.NestThis] using h
  have hU : ({ q with nested := false } : ValuesQuery).mappedRowValues = Except.ok rows := by
    simpa [ValuesQuery.mappedRowValues] using h
  have h1 := AppendSQL_of_mappedRowValues _ rows hN "" []
  have h2 := AppendSQL_of_mappedRowValues _ rows hU "" []
  have h3 : q.NestThis.AppendSQL "" [] = Except.ok (valuesTextQuestion rows, rows.flatten) := by
    simpa [ValuesQuery.NestThis] using h1
  refine ⟨h3, ?_, dollar_not_mem_valuesTextQuestion rows, ?_⟩
  · simp [ValuesQuery.ToSQL, h3]
  · simp [ValuesQuery.ToSQL, h3, h2]

theorem C4_NestThis_neutral_witness :
    (Values.Values [GoValue.int 1, GoValue.int 2]).NestThis.AppendSQL "" [] =
        Except.ok (valuesTextQuestion [[GoValue.int 1, GoValue.int 2]],
          [[GoValue.int 1, GoValue.int 2]].flatten) ∧
      (Values.Values [GoValue.int 1, GoValue.int 2]).NestThis.ToSQL =
        (valuesTextQuestion [[GoValue.int 1, GoValue.int 2]],
          [[GoValue.int 1, GoValue.int 2]].flatten) ∧
      '$' ∉ (valuesTextQuestion [[GoValue.int 1, GoValue.int 2]]).data ∧
      ({ (Values.Values [GoValue.int 1, GoValue.int 2]) with nested := false } :
          ValuesQuery).ToSQL.2 =
        (Values.Values [GoValue.int 1, GoValue.int 2]).NestThis.ToSQL.2 :=
  C4_NestThis_neutral (Values.Values [GoValue.int 1, GoValue.int 2])
    [[GoValue.int 1, GoValue.int 2]] rfl

/-- C5: when a ColumnMapper is set it takes precedence: `AppendSQL` runs it
against a fresh insert-mode Column and renders exactly the rows the collector
holds afterwards, so the output is the one of the query with the mapper alone,
whatever rows were added with `Values` before or after `Valuesx`. -/
theorem C5_mapper_precedence (q0 : ValuesQuery) (mapper : ColumnMapperFunc) (col : Column)
    (hc : mapper { mode := colmode.colmodeInsert, rowValues := [] } = Except.ok col)
    (before after : RowValues) (buf : String) (args : List GoValue) :
    (valuesChain ((valuesChain q0 before).Valuesx (some mapper)) after).AppendSQL buf args =
        ({ nested := q0.nested, RowValues := col.rowValues, ColumnMapper := none } :
          ValuesQuery).AppendSQL buf args ∧
      (valuesChain ((valuesChain q0 before).Valuesx (some mapper)) after).AppendSQL buf args =
        (q0.Valuesx (some mapper)).AppendSQL buf args := by
  obtain ⟨_, h2, h3⟩ :=
    valuesChain_RowValues ((valuesChain q0 before).Valuesx (some mapper)) after
  obtain ⟨_, h5, _⟩ := valuesChain_RowValues q0 before
  have hn : (valuesChain ((valuesChain q0 before).Valuesx (some mapper)) after).nested =
      q0.nested := by
    rw [h2]; simpa [ValuesQuery.Valuesx] using h5
  have hm : (valuesChain ((valuesChain q0 before).Valuesx (some mapper)) after).mappedRowValues =
      Except.ok col.rowValues := by
    unfold ValuesQuery.mappedRowValues
    rw [h3]
    simp [ValuesQuery.Valuesx, hc]
  have hm1 : ({ nested := q0.nested, RowValues := col.rowValues, ColumnMapper := none } :
      ValuesQuery).mappedRowValues = Except.ok col.rowValues := rfl
  have hm2 : (q0.Valuesx (some mapper)).mappedRowValues = Except.ok col.rowValues := by
    simp [ValuesQuery.mappedRowValues, ValuesQuery.Valuesx, hc]
  rw [AppendSQL_of_mappedRowValues _ _ hm, AppendSQL_of_mappedRowValues _ _ hm1,
    AppendSQL_of_mappedRowValues _ _ hm2, hn]
  simp [ValuesQuery.Valuesx]

/-! ### The Row binder -/

theorem destNullBool_of_getElem (r : Row) (v : NullBool)
    (hd : r.dest[r.index]? = some (Dest.nullBool v)) : r.destNullBool = Except.ok v := by
  simp [Row.destNullBool, Row.destAtIndex, hd]

theorem destNullFloat64_of_getElem (r : Row) (v : NullFloat64)
    (hd : r.dest[r.index]? = some (Dest.nullFloat64 v)) : r.destNullFloat64 = Except.ok v := by
  simp [Row.destNullFloat64, Row.destAtIndex, hd]

theorem destNullInt32_of_getElem (r : Row) (v : NullInt32)
    (hd : r.dest[r.index]? = some (Dest.nullInt32 v)) : r.destNullInt32 = Except.ok v := by
  simp [Row.destNullInt32, Row.destAtIndex, hd]

theorem destNullInt64_of_getElem (r : Row) (v : NullInt64)
    (hd : r.dest[r.index]? = some (Dest.nullInt64 v)) : r.destNullInt64 = Except.ok v := by
  simp [Row.destNullInt64, Row.destAtIndex, hd]

theorem destNullString_of_getElem (r : Row) (v : NullString)
    (hd : r.dest[r.index]? = some (Dest.nullString v)) : r.destNullString = Except.ok v := by
  simp [Row.destNullString, Row.destAtIndex, hd]

theorem destNullTime_of_getElem (r : Row) (v : NullTime)
    (hd : r.dest[r.index]? = some (Dest.nullTime v)) : r.destNullTime = Except.ok v := by
  simp [Row.destNullTime, Row.destAtIndex, hd]

theorem NullBool_extraction (r : Row) (rows : Rows) (predicate : Predicate) (v : NullBool)
    (hr : r.rows = some rows) (hd : r.dest[r.index]? = some (Dest.nullBool v)) :
    Row.NullBool r predicate = ({ r with index := r.index + 1 }, Except.ok v) := by
  simp [Row.NullBool, hr, Row.advance, destNullBool_of_getElem r v hd]

theorem RowNullFloat64_extraction (r : Row) (rows : Rows) (field : Field) (v : NullFloat64)
    (hr : r.rows = some rows) (hd : r.dest[r.index]? = some (Dest.nullFloat64 v)) :
    RowNullFloat64 r field = ({ r with index := r.index + 1 }, Except.ok v) := by
  simp [RowNullFloat64, hr, Row.advance, destNullFloat64_of_getElem r v hd]

theorem RowNullInt64_extraction (r : Row) (rows : Rows) (field : Field) (v : NullInt64)
    (hr : r.rows = some rows) (hd : r.dest[r.index]? = some (Dest.nullInt64 v)) :
    RowNullInt64 r field = ({ r with index := r.index + 1 }, Except.ok v) := by
  simp [RowNullInt64, hr, Row.advance, destNullInt64_of_getElem r v hd]

theorem RowNullString_extraction (r : Row) (rows : Rows) (field : Field) (v : NullString)
    (hr : r.rows = some rows) (hd : r.dest[r.index]? = some (Dest.nullString v)) :
    RowNullString r field = ({ r with index := r.index + 1 }, Except.ok v) := by
  simp [RowNullString, hr, Row.advance, destNullString_of_getElem r v hd]

theorem RowNullTime_extraction (r : Row) (rows : Rows) (field : Field) (v : NullTime)
    (hr : r.rows = some rows) (hd : r.dest[r.index]? = some (Dest.nullTime v)) :
    RowNullTime r field = ({ r with index := r.index + 1 }, Except.ok v) := by
  simp [RowNullTime, hr, Row.advance, destNullTime_of_getElem r v hd]

theorem ScanInto_typed_extraction (r : Row) (rows : Rows) (dest : DestArg) (field : Field)
    (site : CallSite) (d : Dest) (w : Written)
    (hr : r.rows = some rows) (hd : r.dest[r.index]? = some d)
    (hw : dest.expected d = some w) :
    r.ScanInto dest field site = ({ r with index := r.index + 1 }, Except.ok (some w)) := by
  cases dest <;> cases d <;> simp only [DestArg.expected, Option.some.injEq, reduceCtorEq] at hw <;>
    subst hw <;>
    first
    | simp [Row.ScanInto, hr, Row.storeTyped, Except.map, destNullBool_of_getElem r _ hd]
    | simp [Row.ScanInto, hr, Row.storeTyped, Except.map, destNullFloat64_of_getElem r _ hd]
    | simp [Row.ScanInto, hr, Row.storeTyped, Except.map, destNullInt32_of_getElem r _ hd]
    | simp [Row.ScanInto, hr, Row.storeTyped, Except.map, destNullInt64_of_getElem r _ hd]
    | simp [Row.ScanInto, hr, Row.storeTyped, Except.map, destNullString_of_getElem r _ hd]
    | simp [Row.ScanInto, hr, Row.storeTyped, Except.map, destNullTime_of_getElem r _ hd]

theorem DestArg_expected_of_wants (dest : DestArg) (d : Dest)
    (hk : dest.wants = some d.kind) : ∃ w, dest.expected d = some w := by
  cases dest <;> cases d <;>
    simp only [DestArg.wants, Dest.kind, Option.some.injEq, reduceCtorEq] at hk <;>
    exact ⟨_, rfl⟩

theorem Call_run_extraction (c : Call) (r : Row) (rows : Rows) (d : Dest)
    (hr : r.rows = some rows) (hd : r.dest[r.index]? = some d)
    (hk : c.wants = some d.kind) :
    ∃ v, c.run r = ({ r with index := r.index + 1 }, Except.ok v) ∧ c.expected d = some v := by
  cases c with
  | ScanInto dest field site =>
    obtain ⟨w, hw⟩ := DestArg_expected_of_wants dest d hk
    refine ⟨Val.stored (some w), ?_, ?_⟩
    · simp [Call.run, thenField, ScanInto_typed_extraction r rows dest field site d w hr hd hw,
        Except.map]
    · show (dest.expected d).map _ = _
      rw [hw]; rfl
  | ScanArray slice field site => exact absurd hk (by intro h; cases h)
  | Bool predicate =>
    cases d <;> first | (cases hk; done) | skip
    exact ⟨_, by simp [Call.run, thenField, Row.Bool, NullBool_extraction r rows predicate _ hr hd, Except.map],
      rfl⟩
  | BoolValid predicate =>
    cases d <;> first | (cases hk; done) | skip
    exact ⟨_, by simp [Call.run, thenField, Row.BoolValid, NullBool_extraction r rows predicate _ hr hd, Except.map],
      rfl⟩
  | NullBool predicate =>
    cases d <;> first | (cases hk; done) | skip
    exact ⟨_, by simp [Call.run, thenField, NullBool_extraction r rows predicate _ hr hd, Except.map],
      rfl⟩
  | Float64 field =>
    cases d <;> first | (cases hk; done) | skip
    exact ⟨_, by simp [Call.run, thenField, Row.Float64, RowNullFloat64_extraction r rows field _ hr hd, Except.map],
      rfl⟩
  | Float64Valid field =>
    cases d <;> first | (cases hk; done) | skip
    exact ⟨_, by simp [Call.run, thenField, Row.Float64Valid, RowNullFloat64_extraction r rows field _ hr hd, Except.map],
      rfl⟩
  | NullFloat64 field =>
    cases d <;> first | (cases hk; done) | skip
    exact ⟨_, by simp [Call.run, thenField, Row.NullFloat64, RowNullFloat64_extraction r rows field _ hr hd, Except.map],
      rfl⟩
  | RowFloat64 field =>
    cases d <;> first | (cases hk; done) | skip
    exact ⟨_, by simp [Call.run, thenField, RowFloat64, RowNullFloat64_extraction r rows field _ hr hd, Except.map],
      rfl⟩
  | RowFloat64Valid field =>
    cases d <;> first | (cases hk; done) | skip
    exact ⟨_, by simp [Call.run, thenField, RowFloat64Valid, RowNullFloat64_extraction r rows field _ hr hd, Except.map],
      rfl⟩
  | RowNullFloat64 field =>
    cases d <;> first | (cases hk; done) | skip
    exact ⟨_, by simp [Call.run, thenField, RowNullFloat64_extraction r rows field _ hr hd, Except.map],
      rfl⟩
  | Int field =>
    cases d <;> first | (cases hk; done) | skip
    exact ⟨_, by simp [Call.run, thenField, Row.Int, RowNullInt64_extraction r rows field _ hr hd, Except.map],
      rfl⟩
  | IntValid field =>
    cases d <;> first | (cases hk; done) | skip
    exact ⟨_, by simp [Call.run, thenField, Row.IntValid, RowNullInt64_extraction r rows field _ hr hd, Except.map],
      rfl⟩
  | RowInt field =>
    cases d <;> first | (cases hk; done) | skip
    exact ⟨_, by simp [Call.run, thenField, RowInt, RowNullInt64_extraction r rows field _ hr hd, Except.map],
      rfl⟩
  | RowIntValid field =>
    cases d <;> first | (cases hk; done) | skip
    exact ⟨_, by simp [Call.run, thenField, RowIntValid, RowNullInt64_extraction r rows field _ hr hd, Except.map],
      rfl⟩
  | Int64 field =>
    cases d <;> first | (cases hk; done) | skip
    exact ⟨_, by simp [Call.run, thenField, Row.Int64, RowNullInt64_extraction r rows field _ hr hd, Except.map],
      rfl⟩
  | Int64Valid field =>
    cases d <;> first | (cases hk; done) | skip
    exact ⟨_, by simp [Call.run, thenField, Row.Int64Valid, Row.NullInt64, RowNullInt64_extraction r rows field _ hr hd, Except.map],
      rfl⟩
  | NullInt64 field =>
    cases d <;> first | (cases hk; done) | skip
    exact ⟨_, by simp [Call.run, thenField, Row.NullInt64, RowNullInt64_extraction r rows field _ hr hd, Except.map],
      rfl⟩
  | RowInt64 field =>
    cases d <;> first | (cases hk; done) | skip
    exact ⟨_, by simp [Call.run, thenField, RowInt64, RowNullInt64_extraction r rows field _ hr hd, Except.map],
      rfl⟩
  | RowInt64Valid field =>
    cases d <;> first | (cases hk; done) | skip
    exact ⟨_, by simp [Call.run, thenField, RowInt64Valid, RowNullInt64_extraction r rows field _ hr hd, Except.map],
      rfl⟩
  | RowNullInt64 field =>
    cases d <;> first | (cases hk; done) | skip
    exact ⟨_, by simp [Call.run, thenField, RowNullInt64_extraction r rows field _ hr hd, Except.map],
      rfl⟩
  | String field =>
    cases d <;> first | (cases hk; done) | skip
    exact ⟨_, by simp [Call.run, thenField, Row.String, RowNullString_extraction r rows field _ hr hd, Except.map],
      rfl⟩
  | StringValid field =>
    cases d <;> first | (cases hk; done) | skip
    exact ⟨_, by simp [Call.run, thenField, Row.StringValid, RowNullString_extraction r rows field _ hr hd, Except.map],
      rfl⟩
  | NullString field =>
    cases d <;> first | (cases hk; done) | skip
    exact ⟨_, by simp [Call.run, thenField, Row.NullString, RowNullString_extraction r rows field _ hr hd, Except.map],
      rfl⟩
  | RowString field =>
    cases d <;> first | (cases hk; done) | skip
    exact ⟨_, by simp [Call.run, thenField, RowString, RowNullString_extraction r rows field _ hr hd, Except.map],
      rfl⟩
  | RowStringValid field =>
    cases d <;> first | (cases hk; done) | skip
    exact ⟨_, by simp [Call.run, thenField, RowStringValid, RowNullString_extraction r rows field _ hr hd, Except.map],
      rfl⟩
  | RowNullString field =>
    cases d <;> first | (cases hk; done) | skip
    exact ⟨_, by simp [Call.run, thenField, RowNullString_extraction r rows field _ hr hd, Except.map],
      rfl⟩
  | Time field =>
    cases d <;> first | (cases hk; done) | skip
    exact ⟨_, by simp [Call.run, thenField, Row.Time, RowNullTime_extraction r rows field _ hr hd, Except.map],
      rfl⟩
  | TimeValid field =>
    cases d <;> first | (cases hk; done) | skip
    exact ⟨_, by simp [Call.run, thenField, Row.TimeValid, RowNullTime_extraction r rows field _ hr hd, Except.map],
      rfl⟩
  | NullTime field =>
    cases d <;> first | (cases hk; done) | skip
    exact ⟨_, by simp [Call.run, thenField, Row.NullTime, RowNullTime_extraction r rows field _ hr hd, Except.map],
      rfl⟩
  | RowTime field =>
    cases d <;> first | (cases hk; done) | skip
    exact ⟨_, by simp [Call.run, thenField, RowTime, RowNullTime_extraction r rows field _ hr hd, Except.map],
      rfl⟩
  | RowTimeValid field =>
    cases d <;> first | (cases hk; done) | skip
    exact ⟨_, by simp [Call.run, thenField, RowTimeValid, RowNullTime_extraction r rows field _ hr hd, Except.map],
      rfl⟩
  | RowNullTime field =>
    cases d <;> first | (cases hk; done) | skip
    exact ⟨_, by simp [Call.run, thenField, RowNullTime_extraction r rows field _ hr hd, Except.map],
      rfl⟩

theorem Call_run_discovery (c : Call) (r : Row) (hr : r.rows = none) :
    ∃ f d, c.run r =
        ({ r with fields := r.fields ++ [f], dest := r.dest ++ [d] }, Except.ok c.zero) ∧
      ∀ k, c.wants = some k → d.kind = k := by
  obtain ⟨rows, index, fields, dest, tmpdest⟩ := r
  simp only at hr
  subst hr
  cases c with
  | ScanInto dest field site =>
    cases dest <;> exact ⟨_, _, rfl, fun k hk => by cases hk <;> rfl⟩
  | ScanArray slice field site => exact ⟨_, _, rfl, fun k hk => by cases hk⟩
  | _ => exact ⟨_, _, rfl, fun k hk => by cases hk; rfl⟩

theorem runCalls_cons_ok (c : Call) (cs : List Call) (r r1 : Row) (v : Val)
    (h : c.run r = (r1, Except.ok v)) :
    runCalls (c :: cs) r = thenField (fun vs => v :: vs) (runCalls cs r1) := by
  simp [runCalls, h]

theorem runCalls_discovery (cs : List Call) (r : Row) (hr : r.rows = none) :
    ∃ fs ds, runCalls cs r =
        ({ r with fields := r.fields ++ fs, dest := r.dest ++ ds },
          Except.ok (cs.map Call.zero)) ∧
      fs.length = cs.length ∧ ds.length = cs.length ∧
      ((∀ c ∈ cs, c.wants ≠ none) → cs.map Call.wants = ds.map fun d => some d.kind) := by
  induction cs generalizing r with
  | nil => exact ⟨[], [], by simp [runCalls], rfl, rfl, fun _ => rfl⟩
  | cons c cs ih =>
    obtain ⟨f, d, h1, h2⟩ := Call_run_discovery c r hr
    obtain ⟨fs, ds, h3, h4, h5, h6⟩ :=
      ih { r with fields := r.fields ++ [f], dest := r.dest ++ [d] } hr
    refine ⟨f :: fs, d :: ds, ?_, by simp [h4], by simp [h5], ?_⟩
    · rw [runCalls_cons_ok c cs r _ _ h1, h3]
      simp [thenField, Except.map]
    · intro hall
      have hc : c.wants ≠ none := hall c (List.mem_cons_self _ _)
      have hcs : ∀ c ∈ cs, c.wants ≠ none := fun x hx => hall x (List.mem_cons_of_mem _ hx)
      cases hw : c.wants with
      | none => exact absurd hw hc
      | some k =>
        simp [h6 hcs, hw, h2 k hw]

theorem runCalls_extraction (cs : List Call) (r : Row) (rows : Rows) (pre ds : List Dest)
    (hr : r.rows = some rows) (hdest : r.dest = pre ++ ds) (hpre : pre.length = r.index)
    (hk : cs.map Call.wants = ds.map fun d => some d.kind) :
    ∃ vals, runCalls cs r = ({ r with index := r.index + cs.length }, Except.ok vals) ∧
      List.zipWith Call.expected cs ds = vals.map some := by
  induction cs generalizing r pre ds with
  | nil => exact ⟨[], by simp [runCalls], by simp⟩
  | cons c cs ih =>
    cases ds with
    | nil => simp at hk
    | cons d ds =>
      simp only [List.map_cons, List.cons.injEq] at hk
      have hd : r.dest[r.index]? = some d := by
        rw [hdest, ← hpre, List.getElem?_append_right (Nat.le_refl _)]; simp
      obtain ⟨v, h1, h2⟩ := Call_run_extraction c r rows d hr hd hk.1
      obtain ⟨vals, h3, h4⟩ := ih { r with index := r.index + 1 } (pre ++ [d]) ds hr
        (by simp [hdest]) (by simp [hpre]) hk.2
      refine ⟨v :: vals, ?_, ?_⟩
      · rw [runCalls_cons_ok c cs r _ _ h1, h3]
        simp [thenField, Except.map, Nat.add_assoc, Nat.add_comm 1]
      · simp [List.zipWith, h2, h4]

/-- C6: in extraction mode (cursor present) each typed accessor called at
position `i` with a scratch destination of the matching kind at index `i`
returns exactly the content of that destination and leaves the Row as it was but
for the position, which grows by one; the plain-value accessors return the value
component and the `*Valid` accessors the non-NULL flag of that same content. -/
theorem C6_extraction_returns_scratch (r : Row) (rows : Rows) (hr : r.rows = some rows) :
    (∀ (predicate : Predicate) (v : NullBool), r.dest[r.index]? = some (Dest.nullBool v) →
        r.NullBool predicate = ({ r with index := r.index + 1 }, Except.ok v) ∧
        r.Bool predicate = ({ r with index := r.index + 1 }, Except.ok v.Bool) ∧
        r.BoolValid predicate = ({ r with index := r.index + 1 }, Except.ok v.Valid)) ∧
    (∀ (field : Field) (v : NullFloat64), r.dest[r.index]? = some (Dest.nullFloat64 v) →
        RowNullFloat64 r field = ({ r with index := r.index + 1 }, Except.ok v) ∧
        r.Float64 field = ({ r with index := r.index + 1 }, Except.ok v.Float64) ∧
        r.Float64Valid field = ({ r with index := r.index + 1 }, Except.ok v.Valid)) ∧
    (∀ (field : Field) (v : NullInt64), r.dest[r.index]? = some (Dest.nullInt64 v) →
        RowNullInt64 r field = ({ r with index := r.index + 1 }, Except.ok v) ∧
        r.Int field = ({ r with index := r.index + 1 }, Except.ok v.Int64) ∧
        r.IntValid field = ({ r with index := r.index + 1 }, Except.ok v.Valid) ∧
        r.Int64 field = ({ r with index := r.index + 1 }, Except.ok v.Int64) ∧
        r.Int64Valid field = ({ r with index := r.index + 1 }, Except.ok v.Valid)) ∧
    (∀ (field : Field) (v : NullString), r.dest[r.index]? = some (Dest.nullString v) →
        RowNullString r field = ({ r with index := r.index + 1 }, Except.ok v) ∧
        r.String field = ({ r with index := r.index + 1 }, Except.ok v.String) ∧
        r.StringValid field = ({ r with index := r.index + 1 }, Except.ok v.Valid)) ∧
    (∀ (field : Field) (v : NullTime), r.dest[r.index]? = some (Dest.nullTime v) →
        RowNullTime r field = ({ r with index := r.index + 1 }, Except.ok v) ∧
        r.Time field = ({ r with index := r.index + 1 }, Except.ok v.Time) ∧
        r.TimeValid field = ({ r with index := r.index + 1 }, Except.ok v.Valid)) := by
  refine ⟨?_, ?_, ?_, ?_, ?_⟩
  · intro predicate v hd
    have h := NullBool_extraction r rows predicate v hr hd
    exact ⟨h, by simp [Row.Bool, thenField, h, Except.map],
      by simp [Row.BoolValid, thenField, h, Except.map]⟩
  · intro field v hd
    have h := RowNullFloat64_extraction r rows field v hr hd
    exact ⟨h, by simp [Row.Float64, thenField, h, Except.map],
      by simp [Row.Float64Valid, thenField, h, Except.map]⟩
  · intro field v hd
    have h := RowNullInt64_extraction r rows field v hr hd
    exact ⟨h, by simp [Row.Int, thenField, h, Except.map, intOfInt64],
      by simp [Row.IntValid, thenField, h, Except.map],
      by simp [Row.Int64, thenField, h, Except.map],
      by simp [Row.Int64Valid, Row.NullInt64, thenField, h, Except.map]⟩
  · intro field v hd
    have h := RowNullString_extraction r rows field v hr hd
    exact ⟨h, by simp [Row.String, thenField, h, Except.map],
      by simp [Row.StringValid, thenField, h, Except.map]⟩
  · intro field v hd
    have h := RowNullTime_extraction r rows field v hr hd
    exact ⟨h, by simp [Row.Time, thenField, h, Except.map],
      by simp [Row.TimeValid, thenField, h, Except.map]⟩

/-- C7: in discovery mode (no cursor) every accessor call appends exactly one
entry to the declared fields and exactly one to the scratch destinations, keeps
the earlier entries and the position, and returns the zero value; hence every
discovery pass started from the empty Row has as many fields as scratch
destinations, and its position is still zero. -/
theorem C7_discovery_appends_one (r : Row) (hr : r.rows = none) :
    (∀ (dest : DestArg) (field : Field) (site : CallSite), ∃ d,
        r.ScanInto dest field site =
          ({ r with fields := r.fields ++ [field], dest := r.dest ++ [d] }, Except.ok none)) ∧
    (∀ (slice : Nat) (field : Field) (site : CallSite),
        r.ScanArray slice field site =
          ({ r with fields := r.fields ++ [field], dest := r.dest ++ [Dest.array slice] },
            Except.ok none)) ∧
    (∀ (predicate : Predicate), ∃ f,
        r.NullBool predicate =
          ({ r with fields := r.fields ++ [f], dest := r.dest ++ [Dest.nullBool ⟨false, false⟩] },
            Except.ok ⟨false, false⟩)) ∧
    (∀ (field : Field),
        RowNullFloat64 r field =
          ({ r with
              fields := r.fields ++ [field],
              dest := r.dest ++ [Dest.nullFloat64 ⟨⟨0⟩, false⟩] },
            Except.ok ⟨⟨0⟩, false⟩)) ∧
    (∀ (field : Field),
        RowNullInt64 r field =
          ({ r with fields := r.fields ++ [field], dest := r.dest ++ [Dest.nullInt64 ⟨0, false⟩] },
            Except.ok ⟨0, false⟩)) ∧
    (∀ (field : Field),
        RowNullString r field =
          ({ r with
              fields := r.fields ++ [field],
              dest := r.dest ++ [Dest.nullString ⟨"", false⟩] },
            Except.ok ⟨"", false⟩)) ∧
    (∀ (field : Field),
        RowNullTime r field =
          ({ r with fields := r.fields ++ [field], dest := r.dest ++ [Dest.nullTime ⟨⟨0⟩, false⟩] },
            Except.ok ⟨⟨0⟩, false⟩)) ∧
    (∀ (cs : List Call),
        (runCalls cs emptyRow).1.fields.length = (runCalls cs emptyRow).1.dest.length ∧
        (runCalls cs emptyRow).1.dest.length = cs.length ∧
        (runCalls cs emptyRow).1.index = 0 ∧
        (runCalls cs emptyRow).2 = Except.ok (cs.map Call.zero)) := by
  obtain ⟨rows, index, fields, dest, tmpdest⟩ := r
  simp only at hr
  subst hr
  refine ⟨?_, ?_, ?_, ?_, ?_, ?_, ?_, ?_⟩
  · intro dest field site
    cases dest <;> exact ⟨_, rfl⟩
  · intro slice field site; rfl
  · intro predicate; exact ⟨_, rfl⟩
  · intro field; rfl
  · intro field; rfl
  · intro field; rfl
  · intro field; rfl
  · intro cs
    obtain ⟨fs, ds, h, hf, hd, _⟩ := runCalls_discovery cs emptyRow rfl
    rw [h]
    simp [emptyRow, hf, hd]

theorem C7_discovery_appends_one_witness :
    RowNullString emptyRow (Field.named "email") =
      ({ emptyRow with
          fields := emptyRow.fields ++ [Field.named "email"],
          dest := emptyRow.dest ++ [Dest.nullString ⟨"", false⟩] },
        Except.ok ⟨"", false⟩) :=
  (C7_discovery_appends_one emptyRow rfl).2.2.2.2.2.1 (Field.named "email")

/-- C10: in discovery mode `ScanInto` chooses the scratch destination from the
type of the caller's destination: `*bool` or `*sql.NullBool` gives a fresh
NullBool, `*float64` or `*sql.NullFloat64` a NullFloat64, `*int32` or
`*sql.NullInt32` a NullInt32, `*int`, `*int64` or `*sql.NullInt64` a NullInt64,
`*string` or `*sql.NullString` a NullString, `*time.Time` or `*sql.NullTime` a
NullTime, and any other destination is passed through itself. -/
theorem C10_discovery_scratch_choice (r : Row) (hr : r.rows = none) (field : Field)
    (site : CallSite) :
    (r.ScanInto DestArg.ptrBool field site).1.dest = r.dest ++ [Dest.nullBool ⟨false, false⟩] ∧
    (r.ScanInto DestArg.ptrNullBool field site).1.dest =
      r.dest ++ [Dest.nullBool ⟨false, false⟩] ∧
    (r.ScanInto DestArg.ptrFloat64 field site).1.dest =
      r.dest ++ [Dest.nullFloat64 ⟨⟨0⟩, false⟩] ∧
    (r.ScanInto DestArg.ptrNullFloat64 field site).1.dest =
      r.dest ++ [Dest.nullFloat64 ⟨⟨0⟩, false⟩] ∧
    (r.ScanInto DestArg.ptrInt32 field site).1.dest = r.dest ++ [Dest.nullInt32 ⟨0, false⟩] ∧
    (r.ScanInto DestArg.ptrNullInt32 field site).1.dest =
      r.dest ++ [Dest.nullInt32 ⟨0, false⟩] ∧
    (r.ScanInto DestArg.ptrInt field site).1.dest = r.dest ++ [Dest.nullInt64 ⟨0, false⟩] ∧
    (r.ScanInto DestArg.ptrInt64 field site).1.dest = r.dest ++ [Dest.nullInt64 ⟨0, false⟩] ∧
    (r.ScanInto DestArg.ptrNullInt64 field site).1.dest =
      r.dest ++ [Dest.nullInt64 ⟨0, false⟩] ∧
    (r.ScanInto DestArg.ptrString field site).1.dest =
      r.dest ++ [Dest.nullString ⟨"", false⟩] ∧
    (r.ScanInto DestArg.ptrNullString field site).1.dest =
      r.dest ++ [Dest.nullString ⟨"", false⟩] ∧
    (r.ScanInto DestArg.ptrTime field site).1.dest = r.dest ++ [Dest.nullTime ⟨⟨0⟩, false⟩] ∧
    (r.ScanInto DestArg.ptrNullTime field site).1.dest =
      r.dest ++ [Dest.nullTime ⟨⟨0⟩, false⟩] ∧
    (∀ id, (r.ScanInto (DestArg.other id) field site).1.dest =
      r.dest ++ [Dest.passthrough (DestArg.other id)]) := by
  obtain ⟨rows, index, fields, dest, tmpdest⟩ := r
  simp only at hr
  subst hr
  exact ⟨rfl, rfl, rfl, rfl, rfl, rfl, rfl, rfl, rfl, rfl, rfl, rfl, rfl, fun _ => rfl⟩

theorem C10_discovery_scratch_choice_witness :
    (emptyRow.ScanInto DestArg.ptrInt (Field.named "id") ⟨"main.go", 10⟩).1.dest =
      emptyRow.dest ++ [Dest.nullInt64 ⟨0, false⟩] :=
  (C10_discovery_scratch_choice emptyRow rfl (Field.named "id") ⟨"main.go", 10⟩).2.2.2.2.2.2.1

theorem rescanTargets_length (r : Row) : r.rescanTargets.length = r.dest.length := by
  unfold Row.rescanTargets
  split
  · simp
  · rename_i h
    simpa using h

theorem rescan_ok (r : Row) (rows : Rows) (target : Target) (op : String) (site : CallSite)
    (stored : Nat → DriverValue) (hi : r.index < r.dest.length)
    (hscan : rows.Scan (r.rescanTargets.set r.index target) = Except.ok stored) :
    r.rescan rows target op site =
      ({ r with
          tmpdest := (r.rescanTargets.set r.index target).set r.index Target.nothing,
          index := r.index + 1 },
        Except.ok (stored r.index)) := by
  simp [Row.rescan, rescanTargets_length, hi, hscan]

/-- C9: in extraction mode `ScanInto` with a destination of an unrecognised type
at position `i < len(dest)`, when the driver's scan succeeds, hands the driver a
list holding the caller's destination at index `i`, so that the caller's
destination receives the driver's value for column `i`; the scratch
destinations, the declared fields and the cursor are unchanged and the position
grows by exactly one. -/
theorem C9_generic_round_trip (r : Row) (rows : Rows) (id : Nat) (field : Field)
    (site : CallSite) (stored : Nat → DriverValue)
    (hr : r.rows = some rows) (hi : r.index < r.dest.length)
    (hscan : rows.Scan (r.rescanTargets.set r.index (Target.dest (DestArg.other id))) =
      Except.ok stored) :
    (r.rescanTargets.set r.index (Target.dest (DestArg.other id)))[r.index]? =
        some (Target.dest (DestArg.other id)) ∧
      (r.ScanInto (DestArg.other id) field site).2 =
        Except.ok (some (Written.scanned (stored r.index))) ∧
      (r.ScanInto (DestArg.other id) field site).1.dest = r.dest ∧
      (r.ScanInto (DestArg.other id) field site).1.fields = r.fields ∧
      (r.ScanInto (DestArg.other id) field site).1.index = r.index + 1 ∧
      (r.ScanInto (DestArg.other id) field site).1.rows = r.rows := by
  have h := rescan_ok r rows (Target.dest (DestArg.other id)) "row.ScanInto" site stored hi hscan
  refine ⟨?_, ?_, ?_, ?_, ?_, ?_⟩
  · simp [List.getElem?_set, rescanTargets_length, hi]
  all_goals simp [Row.ScanInto, hr, h, Except.map]

theorem C9_generic_round_trip_witness :
    (threeColumnRow.rescanTargets.set threeColumnRow.index (Target.dest (DestArg.other 5)))[
          threeColumnRow.index]? = some (Target.dest (DestArg.other 5)) ∧
      (threeColumnRow.ScanInto (DestArg.other 5) (Field.named "tags") ⟨"main.go", 12⟩).2 =
        Except.ok (some (Written.scanned (DriverValue.value (GoValue.int 7)))) ∧
      (threeColumnRow.ScanInto (DestArg.other 5) (Field.named "tags") ⟨"main.go", 12⟩).1.dest =
        threeColumnRow.dest ∧
      (threeColumnRow.ScanInto (DestArg.other 5) (Field.named "tags") ⟨"main.go", 12⟩).1.fields =
        threeColumnRow.fields ∧
      (threeColumnRow.ScanInto (DestArg.other 5) (Field.named "tags") ⟨"main.go", 12⟩).1.index =
        threeColumnRow.index + 1 ∧
      (threeColumnRow.ScanInto (DestArg.other 5) (Field.named "tags") ⟨"main.go", 12⟩).1.rows =
        threeColumnRow.rows :=
  C9_generic_round_trip threeColumnRow sevenRows 5 (Field.named "tags") ⟨"main.go", 12⟩
    (fun _ => DriverValue.value (GoValue.int 7)) rfl (by decide) rfl

theorem C6_extraction_returns_scratch_witness :
    RowNullString { threeColumnRow with index := 2 } (Field.named "email") =
        ({ threeColumnRow with index := 3 }, Except.ok ⟨"a@example.com", true⟩) ∧
      Row.String { threeColumnRow with index := 2 } (Field.named "email") =
        ({ threeColumnRow with index := 3 }, Except.ok "a@example.com") ∧
      Row.StringValid { threeColumnRow with index := 2 } (Field.named "email") =
        ({ threeColumnRow with index := 3 }, Except.ok true) :=
  (C6_extraction_returns_scratch { threeColumnRow with index := 2 } sevenRows rfl).2.2.2.1
    (Field.named "email") ⟨"a@example.com", true⟩ rfl

theorem C5_mapper_precedence_witness :
    (valuesChain ((valuesChain Values [[GoValue.str "x"]]).Valuesx (some oneRowMapper))
          [[GoValue.str "y"]]).AppendSQL "" [] =
        ({ nested := false, RowValues := [[GoValue.int 1, GoValue.int 2]], ColumnMapper := none } :
          ValuesQuery).AppendSQL "" [] ∧
      (valuesChain ((valuesChain Values [[GoValue.str "x"]]).Valuesx (some oneRowMapper))
          [[GoValue.str "y"]]).AppendSQL "" [] =
        (Values.Valuesx (some oneRowMapper)).AppendSQL "" [] :=
  C5_mapper_precedence Values oneRowMapper
    { mode := colmode.colmodeInsert, rowValues := [[GoValue.int 1, GoValue.int 2]] } rfl
    [[GoValue.str "x"]] [[GoValue.str "y"]] "" []

theorem destNullBool_error (r : Row)
    (h : (r.dest[r.index]?).map Dest.kind ≠ some DestKind.nullBool) :
    ∃ e, r.destNullBool = Except.error e := by
  unfold Row.destNullBool Row.destAtIndex
  cases hg : r.dest[r.index]? with
  | none => exact ⟨_, rfl⟩
  | some d =>
    cases d <;> first
    | exact ⟨_, rfl⟩
    | exact absurd (by rw [hg]; rfl) h

theorem destNullFloat64_error (r : Row)
    (h : (r.dest[r.index]?).map Dest.kind ≠ some DestKind.nullFloat64) :
    ∃ e, r.destNullFloat64 = Except.error e := by
  unfold Row.destNullFloat64 Row.destAtIndex
  cases hg : r.dest[r.index]? with
  | none => exact ⟨_, rfl⟩
  | some d =>
    cases d <;> first
    | exact ⟨_, rfl⟩
    | exact absurd (by rw [hg]; rfl) h

theorem destNullInt32_error (r : Row)
    (h : (r.dest[r.index]?).map Dest.kind ≠ some DestKind.nullInt32) :
    ∃ e, r.destNullInt32 = Except.error e := by
  unfold Row.destNullInt32 Row.destAtIndex
  cases hg : r.dest[r.index]? with
  | none => exact ⟨_, rfl⟩
  | some d =>
    cases d <;> first
    | exact ⟨_, rfl⟩
    | exact absurd (by rw [hg]; rfl) h

theorem destNullInt64_error (r : Row)
    (h : (r.dest[r.index]?).map Dest.kind ≠ some DestKind.nullInt64) :
    ∃ e, r.destNullInt64 = Except.error e := by
  unfold Row.destNullInt64 Row.destAtIndex
  cases hg : r.dest[r.index]? with
  | none => exact ⟨_, rfl⟩
  | some d =>
    cases d <;> first
    | exact ⟨_, rfl⟩
    | exact absurd (by rw [hg]; rfl) h

theorem destNullString_error (r : Row)
    (h : (r.dest[r.index]?).map Dest.kind ≠ some DestKind.nullString) :
    ∃ e, r.destNullString = Except.error e := by
  unfold Row.destNullString Row.destAtIndex
  cases hg : r.dest[r.index]? with
  | none => exact ⟨_, rfl⟩
  | some d =>
    cases d <;> first
    | exact ⟨_, rfl⟩
    | exact absurd (by rw [hg]; rfl) h

theorem destNullTime_error (r : Row)
    (h : (r.dest[r.index]?).map Dest.kind ≠ some DestKind.nullTime) :
    ∃ e, r.destNullTime = Except.error e := by
  unfold Row.destNullTime Row.destAtIndex
  cases hg : r.dest[r.index]? with
  | none => exact ⟨_, rfl⟩
  | some d =>
    cases d <;> first
    | exact ⟨_, rfl⟩
    | exact absurd (by rw [hg]; rfl) h

theorem ScanInto_typed_failure (r : Row) (rows : Rows) (dest : DestArg) (field : Field)
    (site : CallSite) (k : DestKind) (hr : r.rows = some rows) (hk : dest.wants = some k)
    (hne : (r.dest[r.index]?).map Dest.kind ≠ some k) :
    ∃ e, r.ScanInto dest field site = (r, Except.error e) := by
  cases dest with
  | ptrBool =>
    cases hk
    obtain ⟨e, he⟩ := destNullBool_error r hne
    exact ⟨e, by simp [Row.ScanInto, hr, Row.storeTyped, he, Except.map]⟩
  | ptrNullBool =>
    cases hk
    obtain ⟨e, he⟩ := destNullBool_error r hne
    exact ⟨e, by simp [Row.ScanInto, hr, Row.storeTyped, he, Except.map]⟩
  | ptrFloat64 =>
    cases hk
    obtain ⟨e, he⟩ := destNullFloat64_error r hne
    exact ⟨e, by simp [Row.ScanInto, hr, Row.storeTyped, he, Except.map]⟩
  | ptrNullFloat64 =>
    cases hk
    obtain ⟨e, he⟩ := destNullFloat64_error r hne
    exact ⟨e, by simp [Row.ScanInto, hr, Row.storeTyped, he, Except.map]⟩
  | ptrInt =>
    cases hk
    obtain ⟨e, he⟩ := destNullInt64_error r hne
    exact ⟨e, by simp [Row.ScanInto, hr, Row.storeTyped, he, Except.map]⟩
  | ptrInt32 =>
    cases hk
    obtain ⟨e, he⟩ := destNullInt32_error r hne
    exact ⟨e, by simp [Row.ScanInto, hr, Row.storeTyped, he, Except.map]⟩
  | ptrNullInt32 =>
    cases hk
    obtain ⟨e, he⟩ := destNullInt32_error r hne
    exact ⟨e, by simp [Row.ScanInto, hr, Row.storeTyped, he, Except.map]⟩
  | ptrInt64 =>
    cases hk
    obtain ⟨e, he⟩ := destNullInt64_error r hne
    exact ⟨e, by simp [Row.ScanInto, hr, Row.storeTyped, he, Except.map]⟩
  | ptrNullInt64 =>
    cases hk
    obtain ⟨e, he⟩ := destNullInt64_error r hne
    exact ⟨e, by simp [Row.ScanInto, hr, Row.storeTyped, he, Except.map]⟩
  | ptrString =>
    cases hk
    obtain ⟨e, he⟩ := destNullString_error r hne
    exact ⟨e, by simp [Row.ScanInto, hr, Row.storeTyped, he, Except.map]⟩
  | ptrNullString =>
    cases hk
    obtain ⟨e, he⟩ := destNullString_error r hne
    exact ⟨e, by simp [Row.ScanInto, hr, Row.storeTyped, he, Except.map]⟩
  | ptrTime =>
    cases hk
    obtain ⟨e, he⟩ := destNullTime_error r hne
    exact ⟨e, by simp [Row.ScanInto, hr, Row.storeTyped, he, Except.map]⟩
  | ptrNullTime =>
    cases hk
    obtain ⟨e, he⟩ := destNullTime_error r hne
    exact ⟨e, by simp [Row.ScanInto, hr, Row.storeTyped, he, Except.map]⟩
  | other id => cases hk

theorem Call_run_failure (c : Call) (r : Row) (rows : Rows) (k : DestKind)
    (hr : r.rows = some rows) (hk : c.wants = some k)
    (hne : (r.dest[r.index]?).map Dest.kind ≠ some k) :
    ∃ e, c.run r = (r, Except.error e) := by
  cases c with
  | ScanInto dest field site =>
    obtain ⟨e, he⟩ := ScanInto_typed_failure r rows dest field site k hr hk hne
    exact ⟨e, by simp [Call.run, thenField, he, Except.map]⟩
  | ScanArray slice field site => cases hk
  | Bool predicate =>
    cases hk
    obtain ⟨e, he⟩ := destNullBool_error r hne
    exact ⟨e, by simp [Call.run, thenField, Row.Bool, Row.NullBool, hr, Row.advance, he, Except.map]⟩
  | BoolValid predicate =>
    cases hk
    obtain ⟨e, he⟩ := destNullBool_error r hne
    exact ⟨e, by simp [Call.run, thenField, Row.BoolValid, Row.NullBool, hr, Row.advance, he, Except.map]⟩
  | NullBool predicate =>
    cases hk
    obtain ⟨e, he⟩ := destNullBool_error r hne
    exact ⟨e, by simp [Call.run, thenField, Row.NullBool, hr, Row.advance, he, Except.map]⟩
  | Float64 field =>
    cases hk
    obtain ⟨e, he⟩ := destNullFloat64_error r hne
    exact ⟨e, by simp [Call.run, thenField, Row.Float64, RowNullFloat64, hr, Row.advance, he, Except.map]⟩
  | Float64Valid field =>
    cases hk
    obtain ⟨e, he⟩ := destNullFloat64_error r hne
    exact ⟨e, by simp [Call.run, thenField, Row.Float64Valid, RowNullFloat64, hr, Row.advance, he, Except.map]⟩
  | NullFloat64 field =>
    cases hk
    obtain ⟨e, he⟩ := destNullFloat64_error r hne
    exact ⟨e, by simp [Call.run, thenField, Row.NullFloat64, RowNullFloat64, hr, Row.advance, he, Except.map]⟩
  | RowFloat64 field =>
    cases hk
    obtain ⟨e, he⟩ := destNullFloat64_error r hne
    exact ⟨e, by simp [Call.run, thenField, RowFloat64, RowNullFloat64, hr, Row.advance, he, Except.map]⟩
  | RowFloat64Valid field =>
    cases hk
    obtain ⟨e, he⟩ := destNullFloat64_error r hne
    exact ⟨e, by simp [Call.run, thenField, RowFloat64Valid, RowNullFloat64, hr, Row.advance, he, Except.map]⟩
  | RowNullFloat64 field =>
    cases hk
    obtain ⟨e, he⟩ := destNullFloat64_error r hne
    exact ⟨e, by simp [Call.run, thenField, RowNullFloat64, hr, Row.advance, he, Except.map]⟩
  | Int field =>
    cases hk
    obtain ⟨e, he⟩ := destNullInt64_error r hne
    exact ⟨e, by simp [Call.run, thenField, Row.Int, RowNullInt64, hr, Row.advance, he, Except.map]⟩
  | IntValid field =>
    cases hk
    obtain ⟨e, he⟩ := destNullInt64_error r hne
    exact ⟨e, by simp [Call.run, thenField, Row.IntValid, RowNullInt64, hr, Row.advance, he, Except.map]⟩
  | RowInt field =>
    cases hk
    obtain ⟨e, he⟩ := destNullInt64_error r hne
    exact ⟨e, by simp [Call.run, thenField, RowInt, RowNullInt64, hr, Row.advance, he, Except.map]⟩
  | RowIntValid field =>
    cases hk
    obtain ⟨e, he⟩ := destNullInt64_error r hne
    exact ⟨e, by simp [Call.run, thenField, RowIntValid, RowNullInt64, hr, Row.advance, he, Except.map]⟩
  | Int64 field =>
    cases hk
    obtain ⟨e, he⟩ := destNullInt64_error r hne
    exact ⟨e, by simp [Call.run, thenField, Row.Int64, RowNullInt64, hr, Row.advance, he, Except.map]⟩
  | Int64Valid field =>
    cases hk
    obtain ⟨e, he⟩ := destNullInt64_error r hne
    exact ⟨e, by simp [Call.run, thenField, Row.Int64Valid, Row.NullInt64, RowNullInt64, hr, Row.advance, he, Except.map]⟩
  | NullInt64 field =>
    cases hk
    obtain ⟨e, he⟩ := destNullInt64_error r hne
    exact ⟨e, by simp [Call.run, thenField, Row.NullInt64, RowNullInt64, hr, Row.advance, he, Except.map]⟩
  | RowInt64 field =>
    cases hk
    obtain ⟨e, he⟩ := destNullInt64_error r hne
    exact ⟨e, by simp [Call.run, thenField, RowInt64, RowNullInt64, hr, Row.advance, he, Except.map]⟩
  | RowInt64Valid field =>
    cases hk
    obtain ⟨e, he⟩ := destNullInt64_error r hne
    exact ⟨e, by simp [Call.run, thenField, RowInt64Valid, RowNullInt64, hr, Row.advance, he, Except.map]⟩
  | RowNullInt64 field =>
    cases hk
    obtain ⟨e, he⟩ := destNullInt64_error r hne
    exact ⟨e, by simp [Call.run, thenField, RowNullInt64, hr, Row.advance, he, Except.map]⟩
  | String field =>
    cases hk
    obtain ⟨e, he⟩ := destNullString_error r hne
    exact ⟨e, by simp [Call.run, thenField, Row.String, RowNullString, hr, Row.advance, he, Except.map]⟩
  | StringValid field =>
    cases hk
    obtain ⟨e, he⟩ := destNullString_error r hne
    exact ⟨e, by simp [Call.run, thenField, Row.StringValid, RowNullString, hr, Row.advance, he, Except.map]⟩
  | NullString field =>
    cases hk
    obtain ⟨e, he⟩ := destNullString_error r hne
    exact ⟨e, by simp [Call.run, thenField, Row.NullString, RowNullString, hr, Row.advance, he, Except.map]⟩
  | RowString field =>
    cases hk
    obtain ⟨e, he⟩ := destNullString_error r hne
    exact ⟨e, by simp [Call.run, thenField, RowString, RowNullString, hr, Row.advance, he, Except.map]⟩
  | RowStringValid field =>
    cases hk
    obtain ⟨e, he⟩ := destNullString_error r hne
    exact ⟨e, by simp [Call.run, thenField, RowStringValid, RowNullString, hr, Row.advance, he, Except.map]⟩
  | RowNullString field =>
    cases hk
    obtain ⟨e, he⟩ := destNullString_error r hne
    exact ⟨e, by simp [Call.run, thenField, RowNullString, hr, Row.advance, he, Except.map]⟩
  | Time field =>
    cases hk
    obtain ⟨e, he⟩ := destNullTime_error r hne
    exact ⟨e, by simp [Call.run, thenField, Row.Time, RowNullTime, hr, Row.advance, he, Except.map]⟩
  | TimeValid field =>
    cases hk
    obtain ⟨e, he⟩ := destNullTime_error r hne
    exact ⟨e, by simp [Call.run, thenField, Row.TimeValid, RowNullTime, hr, Row.advance, he, Except.map]⟩
  | NullTime field =>
    cases hk
    obtain ⟨e, he⟩ := destNullTime_error r hne
    exact ⟨e, by simp [Call.run, thenField, Row.NullTime, RowNullTime, hr, Row.advance, he, Except.map]⟩
  | RowTime field =>
    cases hk
    obtain ⟨e, he⟩ := destNullTime_error r hne
    exact ⟨e, by simp [Call.run, thenField, RowTime, RowNullTime, hr, Row.advance, he, Except.map]⟩
  | RowTimeValid field =>
    cases hk
    obtain ⟨e, he⟩ := destNullTime_error r hne
    exact ⟨e, by simp [Call.run, thenField, RowTimeValid, RowNullTime, hr, Row.advance, he, Except.map]⟩
  | RowNullTime field =>
    cases hk
    obtain ⟨e, he⟩ := destNullTime_error r hne
    exact ⟨e, by simp [Call.run, thenField, RowNullTime, hr, Row.advance, he, Except.map]⟩

/-- C8: in extraction mode a typed accessor call succeeds if and only if the
position is below the number of scratch destinations and the scratch destination
at the position has the kind the accessor asks for; otherwise (out of range, or
another kind) the call panics instead of returning a value, and the Row, its
position included, is left as it was. -/
theorem C8_extraction_mismatch_panics (c : Call) (r : Row) (rows : Rows) (k : DestKind)
    (hr : r.rows = some rows) (hk : c.wants = some k) :
    ((∃ v, (c.run r).2 = Except.ok v) ↔
        (r.index < r.dest.length ∧ (r.dest[r.index]?).map Dest.kind = some k)) ∧
      ((∃ v, c.run r = ({ r with index := r.index + 1 }, Except.ok v)) ∨
        (∃ e, c.run r = (r, Except.error e))) := by
  by_cases hm : (r.dest[r.index]?).map Dest.kind = some k
  · cases hg : r.dest[r.index]? with
    | none => rw [hg] at hm; cases hm
    | some d =>
      have hlt : r.index < r.dest.length := by
        by_contra hge
        rw [List.getElem?_eq_none (Nat.le_of_not_lt hge)] at hg
        cases hg
      have hkd : c.wants = some d.kind := by
        rw [hg] at hm
        rw [hk]
        exact hm.symm
      obtain ⟨v, h1, _⟩ := Call_run_extraction c r rows d hr hg hkd
      refine ⟨⟨fun _ => ⟨hlt, by rw [hg] at hm; exact hm⟩, fun _ => ⟨v, by rw [h1]⟩⟩,
        Or.inl ⟨v, h1⟩⟩
  · obtain ⟨e, he⟩ := Call_run_failure c r rows k hr hk hm
    refine ⟨⟨fun ⟨v, hv⟩ => ?_, fun h => absurd h.2 hm⟩, Or.inr ⟨e, he⟩⟩
    rw [he] at hv
    cases hv

theorem C8_extraction_mismatch_panics_witness :
    ((∃ v, ((Call.RowNullInt64 (Field.named "tags")).run threeColumnRow).2 = Except.ok v) ↔
        (threeColumnRow.index < threeColumnRow.dest.length ∧
          (threeColumnRow.dest[threeColumnRow.index]?).map Dest.kind =
            some DestKind.nullInt64)) ∧
      ((∃ v, (Call.RowNullInt64 (Field.named "tags")).run threeColumnRow =
          ({ threeColumnRow with index := threeColumnRow.index + 1 }, Except.ok v)) ∨
        (∃ e, (Call.RowNullInt64 (Field.named "tags")).run threeColumnRow =
          (threeColumnRow, Except.error e))) :=
  C8_extraction_mismatch_panics (Call.RowNullInt64 (Field.named "tags")) threeColumnRow sevenRows
    DestKind.nullInt64 rfl rfl

/-- C2: discovery/extraction symmetry. A sequence of `K` typed accessor calls
run on the empty Row with no cursor declares exactly `K` fields and `K` scratch
destinations; after any scan that fills those destinations keeping the kind of
each, the same sequence run with a cursor from position 0 does not fail, returns
exactly `K` values, the i-th being the content (or the value component, or the
non-NULL flag) of the i-th scratch destination, and ends at position `K`. -/
theorem C2_discovery_extraction_symmetry (cs : List Call) (hty : ∀ c ∈ cs, c.wants ≠ none) :
    (runCalls cs emptyRow).1.fields.length = cs.length ∧
      (runCalls cs emptyRow).1.dest.length = cs.length ∧
      ∀ (rows : Rows) (fields : List Field) (scanned : List Dest) (tmpdest : List Target),
        scanned.map Dest.kind = (runCalls cs emptyRow).1.dest.map Dest.kind →
        ∃ vals,
          runCalls cs
              { rows := some rows, index := 0, fields := fields, dest := scanned,
                tmpdest := tmpdest } =
            ({ rows := some rows, index := cs.length, fields := fields, dest := scanned,
                tmpdest := tmpdest }, Except.ok vals) ∧
          vals.length = cs.length ∧
          List.zipWith Call.expected cs scanned = vals.map some := by
  obtain ⟨fs, ds, h, hf, hd, hkinds⟩ := runCalls_discovery cs emptyRow rfl
  rw [h]
  refine ⟨by simp [emptyRow, hf], by simp [emptyRow, hd], ?_⟩
  intro rows fields scanned tmpdest hscan
  have hk : cs.map Call.wants = scanned.map fun d => some d.kind := by
    rw [hkinds hty]
    have h2 : scanned.map Dest.kind = ds.map Dest.kind := by simpa [emptyRow] using hscan
    have h3 := congrArg (List.map some) h2
    simpa [List.map_map, Function.comp_def] using h3.symm
  obtain ⟨vals, h1, h2⟩ := runCalls_extraction cs
    { rows := some rows, index := 0, fields := fields, dest := scanned, tmpdest := tmpdest }
    rows [] scanned rfl rfl rfl hk
  refine ⟨vals, by simpa using h1, ?_, h2⟩
  have hl := congrArg List.length h2
  have hl2 := congrArg List.length hk
  simp at hl hl2
  omega

theorem C2_discovery_extraction_symmetry_witness :
    (∀ c ∈ [Call.RowNullInt64 (Field.named "id"), Call.StringValid (Field.named "email")],
        c.wants ≠ none) ∧
      (runCalls [Call.RowNullInt64 (Field.named "id"), Call.StringValid (Field.named "email")]
          emptyRow).1.dest.length = 2 ∧
      ∃ vals,
        runCalls [Call.RowNullInt64 (Field.named "id"), Call.StringValid (Field.named "email")]
            { rows := some sevenRows, index := 0, fields := [],
              dest := [Dest.nullInt64 ⟨42, true⟩, Dest.nullString ⟨"", false⟩],
              tmpdest := [] } =
          ({ rows := some sevenRows, index := 2, fields := [],
              dest := [Dest.nullInt64 ⟨42, true⟩, Dest.nullString ⟨"", false⟩],
              tmpdest := [] }, Except.ok vals) ∧
        vals.length = 2 ∧
        List.zipWith Call.expected
            [Call.RowNullInt64 (Field.named "id"), Call.StringValid (Field.named "email")]
            [Dest.nullInt64 ⟨42, true⟩, Dest.nullString ⟨"", false⟩] =
          vals.map some :=
  ⟨by decide,
    (C2_discovery_extraction_symmetry
      [Call.RowNullInt64 (Field.named "id"), Call.StringValid (Field.named "email")]
      (by decide)).2.1,
    (C2_discovery_extraction_symmetry
      [Call.RowNullInt64 (Field.named "id"), Call.StringValid (Field.named "email")]
      (by decide)).2.2 sevenRows [] [Dest.nullInt64 ⟨42, true⟩, Dest.nullString ⟨"", false⟩] []
      rfl⟩

/-! ### The rescan of one column -/

theorem rescan_error (r : Row) (rows : Rows) (target : Target) (op : String) (site : CallSite)
    (err : GoError) (hi : r.index < r.dest.length)
    (hscan : rows.Scan (r.scanList target) = Except.error err) :
    r.rescan rows target op site =
      ({ r with tmpdest := r.scanList target },
        Except.error (GoValue.error (GoError.wrapped op site.sourcefile site.linenbr err))) := by
  unfold Row.scanList at hscan
  simp [Row.rescan, rescanTargets_length, hi, hscan, Row.scanList]

theorem rescan_ok_scanList (r : Row) (rows : Rows) (target : Target) (op : String)
    (site : CallSite) (stored : Nat → DriverValue) (hi : r.index < r.dest.length)
    (hscan : rows.Scan (r.scanList target) = Except.ok stored) :
    r.rescan rows target op site =
      ({ r with tmpdest := r.rescanTargets.set r.index Target.nothing, index := r.index + 1 },
        Except.ok (stored r.index)) := by
  unfold Row.scanList at hscan
  simp [Row.rescan, rescanTargets_length, hi, hscan, List.set_set]

theorem rescan_error_iff (r : Row) (rows : Rows) (target : Target) (op : String)
    (site : CallSite) (hi : r.index < r.dest.length) :
    (∃ e, (r.rescan rows target op site).2 = Except.error e) ↔
      ∃ err, rows.Scan (r.scanList target) = Except.error err := by
  cases hscan : rows.Scan (r.scanList target) with
  | error err =>
    rw [rescan_error r rows target op site err hi hscan]
    exact ⟨fun _ => ⟨err, rfl⟩, fun _ => ⟨_, rfl⟩⟩
  | ok stored =>
    rw [rescan_ok_scanList r rows target op site stored hi hscan]
    constructor
    · rintro ⟨e, he⟩; cases he
    · rintro ⟨err, he⟩; cases he

/-- C11: in extraction mode with the position below the number of scratch
destinations, `ScanInto` with a generic destination and `ScanArray` panic if and
only if the driver's scan returns an error; the panic value is an error that
wraps the driver's error and names the operation and the caller's source file
and line, and the position is not advanced; when the scan succeeds the call
returns normally with the position advanced by one. -/
theorem C11_scan_error_is_fatal (r : Row) (rows : Rows) (id slice : Nat) (field : Field)
    (site : CallSite) (hr : r.rows = some rows) (hi : r.index < r.dest.length) :
    (∀ err, rows.Scan (r.scanList (Target.dest (DestArg.other id))) = Except.error err →
        (r.ScanInto (DestArg.other id) field site).2 =
            Except.error (GoValue.error
              (GoError.wrapped "row.ScanInto" site.sourcefile site.linenbr err)) ∧
          (r.ScanInto (DestArg.other id) field site).1.index = r.index) ∧
      (∀ stored, rows.Scan (r.scanList (Target.dest (DestArg.other id))) = Except.ok stored →
        (r.ScanInto (DestArg.other id) field site).2 =
            Except.ok (some (Written.scanned (stored r.index))) ∧
          (r.ScanInto (DestArg.other id) field site).1.index = r.index + 1) ∧
      ((∃ e, (r.ScanInto (DestArg.other id) field site).2 = Except.error e) ↔
        ∃ err, rows.Scan (r.scanList (Target.dest (DestArg.other id))) = Except.error err) ∧
      (∀ err, rows.Scan (r.scanList (Target.array slice)) = Except.error err →
        (r.ScanArray slice field site).2 =
            Except.error (GoValue.error
              (GoError.wrapped "row.ScanArray" site.sourcefile site.linenbr err)) ∧
          (r.ScanArray slice field site).1.index = r.index) ∧
      (∀ stored, rows.Scan (r.scanList (Target.array slice)) = Except.ok stored →
        (r.ScanArray slice field site).2 = Except.ok (some (stored r.index)) ∧
          (r.ScanArray slice field site).1.index = r.index + 1) ∧
      ((∃ e, (r.ScanArray slice field site).2 = Except.error e) ↔
        ∃ err, rows.Scan (r.scanList (Target.array slice)) = Except.error err) := by
  have hI : r.ScanInto (DestArg.other id) field site =
      ((r.rescan rows (Target.dest (DestArg.other id)) "row.ScanInto" site).1,
        (r.rescan rows (Target.dest (DestArg.other id)) "row.ScanInto" site).2.map
          fun v => some (Written.scanned v)) := by
    simp [Row.ScanInto, hr]
  have hA : r.ScanArray slice field site =
      ((r.rescan rows (Target.array slice) "row.ScanArray" site).1,
        (r.rescan rows (Target.array slice) "row.ScanArray" site).2.map some) := by
    simp [Row.ScanArray, hr]
  refine ⟨?_, ?_, ?_, ?_, ?_, ?_⟩
  · intro err hscan
    rw [hI, rescan_error r rows _ _ site err hi hscan]
    exact ⟨rfl, rfl⟩
  · intro stored hscan
    rw [hI, rescan_ok_scanList r rows _ _ site stored hi hscan]
    exact ⟨rfl, rfl⟩
  · rw [← rescan_error_iff r rows (Target.dest (DestArg.other id)) "row.ScanInto" site hi, hI]
    cases (r.rescan rows (Target.dest (DestArg.other id)) "row.ScanInto" site).2 <;>
      simp [Except.map]
  · intro err hscan
    rw [hA, rescan_error r rows _ _ site err hi hscan]
    exact ⟨rfl, rfl⟩
  · intro stored hscan
    rw [hA, rescan_ok_scanList r rows _ _ site stored hi hscan]
    exact ⟨rfl, rfl⟩
  · rw [← rescan_error_iff r rows (Target.array slice) "row.ScanArray" site hi, hA]
    cases (r.rescan rows (Target.array slice) "row.ScanArray" site).2 <;>
      simp [Except.map]

theorem C11_scan_error_is_fatal_witness :
    (threeColumnFailingRow.ScanInto (DestArg.other 5) (Field.named "tags") ⟨"main.go", 12⟩).2 =
        Except.error (GoValue.error
          (GoError.wrapped "row.ScanInto" "main.go" 12
            (GoError.message "sql: Scan error on column index 1"))) ∧
      (threeColumnFailingRow.ScanInto (DestArg.other 5) (Field.named "tags")
        ⟨"main.go", 12⟩).1.index = threeColumnFailingRow.index :=
  (C11_scan_error_is_fatal threeColumnFailingRow failingRows 5 0 (Field.named "tags")
    ⟨"main.go", 12⟩ rfl (by decide)).1 (GoError.message "sql: Scan error on column index 1") rfl

theorem rescanTargets_eq_replicate (r : Row) (h : r.tmpdestDiscards) :
    r.rescanTargets = List.replicate r.dest.length Target.nothing := by
  rw [List.eq_replicate_iff]
  refine ⟨rescanTargets_length r, ?_⟩
  unfold Row.rescanTargets
  split
  · intro b hb
    exact List.eq_of_mem_replicate hb
  · exact h

theorem Call_run_typed_tmpdest (c : Call) (r : Row) (k : DestKind) (hk : c.wants = some k) :
    (c.run r).1.tmpdest = r.tmpdest := by
  cases hr : r.rows with
  | none =>
    obtain ⟨f, d, h, _⟩ := Call_run_discovery c r hr
    rw [h]
  | some rows =>
    by_cases hm : (r.dest[r.index]?).map Dest.kind = some k
    · cases hg : r.dest[r.index]? with
      | none => rw [hg] at hm; cases hm
      | some d =>
        have hkd : c.wants = some d.kind := by
          rw [hg] at hm
          rw [hk]
          exact hm.symm
        obtain ⟨v, h1, _⟩ := Call_run_extraction c r rows d hr hg hkd
        rw [h1]
    · obtain ⟨e, he⟩ := Call_run_failure c r rows k hr hk hm
      rw [he]

theorem rescan_returns_discards (r : Row) (rows : Rows) (target : Target) (op : String)
    (site : CallSite) (v : DriverValue) (r1 : Row) (h : r.tmpdestDiscards)
    (hrun : r.rescan rows target op site = (r1, Except.ok v)) :
    r1.tmpdest = List.replicate r.dest.length Target.nothing ∧ r1.dest = r.dest := by
  by_cases hi : r.index < r.dest.length
  · cases hscan : rows.Scan (r.scanList target) with
    | error err =>
      rw [rescan_error r rows target op site err hi hscan] at hrun
      cases hrun
    | ok stored =>
      rw [rescan_ok_scanList r rows target op site stored hi hscan] at hrun
      cases hrun
      simp [rescanTargets_eq_replicate r h]
  · simp [Row.rescan, rescanTargets_length, hi] at hrun

theorem Call_run_keeps_discards (c : Call) (r r1 : Row) (v : Val) (h : r.tmpdestDiscards)
    (hrun : c.run r = (r1, Except.ok v)) : r1.tmpdestDiscards := by
  have typed : ∀ k, c.wants = some k → r1.tmpdestDiscards := by
    intro k hk
    have h2 := Call_run_typed_tmpdest c r k hk
    rw [hrun] at h2
    unfold Row.tmpdestDiscards
    rw [show r1.tmpdest = r.tmpdest from h2]
    exact h
  have generic : ∀ (target : Target) (op : String) (site : CallSite) (rows : Rows)
      (x : Except GoValue DriverValue),
      r.rescan rows target op site = (r1, x) → (∃ w, x = Except.ok w) →
      r1.tmpdestDiscards := by
    intro target op site rows x hx hw
    obtain ⟨w, rfl⟩ := hw
    obtain ⟨h3, _⟩ := rescan_returns_discards r rows target op site w r1 h hx
    unfold Row.tmpdestDiscards
    rw [h3]
    intro t ht
    exact List.eq_of_mem_replicate ht
  have disc : r.rows = none → r1.tmpdestDiscards := by
    intro hr
    obtain ⟨f, d, h2, _⟩ := Call_run_discovery c r hr
    rw [hrun] at h2
    cases h2
    exact h
  cases hr : r.rows with
  | none => exact disc hr
  | some rows =>
    cases c with
    | ScanInto dest field site =>
      cases dest with
      | other id =>
        simp only [Call.run, Row.ScanInto, hr, thenField] at hrun
        cases hx : r.rescan rows (Target.dest (DestArg.other id)) "row.ScanInto" site with
        | mk r2 x =>
          rw [hx] at hrun
          cases x with
          | error e => cases hrun
          | ok w =>
            cases hrun
            exact generic _ _ _ _ _ hx ⟨w, rfl⟩
      | _ => exact typed _ rfl
    | ScanArray slice field site =>
      simp only [Call.run, Row.ScanArray, hr, thenField] at hrun
      cases hx : r.rescan rows (Target.array slice) "row.ScanArray" site with
      | mk r2 x =>
        rw [hx] at hrun
        cases x with
        | error e => cases hrun
        | ok w =>
          cases hrun
          exact generic _ _ _ _ _ hx ⟨w, rfl⟩
    | _ => exact typed _ rfl

/-- C16: in extraction mode at position `i < len(dest)`, the rescan list
holding only discard targets (as the nil list of a new Row does, and as every
returning call leaves it), the list handed to the driver's scan by `ScanInto`
with a generic destination and by `ScanArray` has length `len(dest)`, holds the
caller's destination at index `i` and a discard target at every other index;
after a successful call every entry of the rescan list, index `i` included, is a
discard target again and the list still has length `len(dest)`. -/
theorem C16_rescan_list (r : Row) (rows : Rows) (id slice : Nat) (field : Field)
    (site : CallSite) (hr : r.rows = some rows) (hclean : r.tmpdestDiscards)
    (hi : r.index < r.dest.length) :
    (∀ target, (r.scanList target).length = r.dest.length ∧
        (r.scanList target)[r.index]? = some target ∧
        ∀ j, j < r.dest.length → j ≠ r.index → (r.scanList target)[j]? = some Target.nothing) ∧
      r.ScanInto (DestArg.other id) field site =
        (match rows.Scan (r.scanList (Target.dest (DestArg.other id))) with
        | Except.error err =>
          ({ r with tmpdest := r.scanList (Target.dest (DestArg.other id)) },
            Except.error (GoValue.error
              (GoError.wrapped "row.ScanInto" site.sourcefile site.linenbr err)))
        | Except.ok stored =>
          ({ r with
              tmpdest := List.replicate r.dest.length Target.nothing,
              index := r.index + 1 },
            Except.ok (some (Written.scanned (stored r.index))))) ∧
      r.ScanArray slice field site =
        (match rows.Scan (r.scanList (Target.array slice)) with
        | Except.error err =>
          ({ r with tmpdest := r.scanList (Target.array slice) },
            Except.error (GoValue.error
              (GoError.wrapped "row.ScanArray" site.sourcefile site.linenbr err)))
        | Except.ok stored =>
          ({ r with
              tmpdest := List.replicate r.dest.length Target.nothing,
              index := r.index + 1 },
            Except.ok (some (stored r.index)))) ∧
      (∀ (c : Call) (r1 : Row) (v : Val), c.run r = (r1, Except.ok v) → r1.tmpdestDiscards) := by
  have hrep := rescanTargets_eq_replicate r hclean
  refine ⟨?_, ?_, ?_, ?_⟩
  · intro target
    refine ⟨by simp [Row.scanList, rescanTargets_length], ?_, ?_⟩
    · simp [Row.scanList, List.getElem?_set, rescanTargets_length, hi]
    · intro j hj hne
      rw [Row.scanList, List.getElem?_set_ne (Ne.symm hne), hrep, List.getElem?_replicate]
      simp [hj]
  · cases hscan : rows.Scan (r.scanList (Target.dest (DestArg.other id))) with
    | error err =>
      simp [Row.ScanInto, hr, rescan_error r rows _ _ site err hi hscan, Except.map]
    | ok stored =>
      simp [Row.ScanInto, hr, rescan_ok_scanList r rows _ _ site stored hi hscan, Except.map,
        hrep]
  · cases hscan : rows.Scan (r.scanList (Target.array slice)) with
    | error err =>
      simp [Row.ScanArray, hr, rescan_error r rows _ _ site err hi hscan, Except.map]
    | ok stored =>
      simp [Row.ScanArray, hr, rescan_ok_scanList r rows _ _ site stored hi hscan, Except.map,
        hrep]
  · intro c r1 v hrun
    exact Call_run_keeps_discards c r r1 v hclean hrun

theorem C16_rescan_list_witness :
    (threeColumnRow.scanList (Target.array 3)).length = threeColumnRow.dest.length ∧
      (threeColumnRow.scanList (Target.array 3))[threeColumnRow.index]? =
        some (Target.array 3) ∧
      ∀ j, j < threeColumnRow.dest.length → j ≠ threeColumnRow.index →
        (threeColumnRow.scanList (Target.array 3))[j]? = some Target.nothing :=
  (C16_rescan_list threeColumnRow sevenRows 5 3 (Field.named "tags") ⟨"main.go", 12⟩ rfl
    (by intro t ht; cases ht) (by decide)).1 (Target.array 3)

/-! ### More on the VALUES query -/

theorem translateFrom_valuesTextQuestion_from (k : Nat) (rows : RowValues) :
    translateFrom k (valuesTextQuestion rows) =
      "VALUES " ++ ", ".intercalate (dollarRows k rows) := by
  have h0 : questionCount "VALUES " = 0 := by decide
  have h1 : translateFrom k "VALUES " = "VALUES " :=
    translateFrom_of_questionCount_eq_zero _ _ h0
  simp [valuesTextQuestion, translateFrom_append, translateFrom_intercalate,
    translateList_questionRows, h0, h1]

theorem questionCount_valuesTextQuestion (rows : RowValues) :
    questionCount (valuesTextQuestion rows) = rows.flatten.length := by
  have h0 : questionCount "VALUES " = 0 := by decide
  simp only [valuesTextQuestion, questionCount_append, questionCount_intercalate, h0,
    List.map_map, Nat.zero_add, List.length_flatten]
  congr 1
  apply List.map_congr_left
  intro r _
  simp [questionCount_questionRow]

theorem AppendSQLRun_of_mappedRowValues (q : ValuesQuery) (rows : RowValues)
    (h : q.mappedRowValues = Except.ok rows) (buf : String) (args : List GoValue) :
    q.AppendSQLRun buf args =
      ({ caller := q, q := { q with RowValues := rows },
          buf := (if q.nested then buf ++ valuesTextQuestion rows
            else translateFrom 0 (buf ++ valuesTextQuestion rows)),
          args := args ++ rows.flatten }, Except.ok ()) := by
  obtain ⟨nested, rowValues, columnMapper⟩ := q
  cases columnMapper with
  | none =>
    simp only [ValuesQuery.mappedRowValues] at h
    cases h
    cases nested <;>
      simp [ValuesQuery.AppendSQLRun, RowValues_AppendSQL_eq, valuesTextQuestion,
        questionToDollarPlaceholders_empty, String.append_assoc]
  | some mapper =>
    simp only [ValuesQuery.mappedRowValues] at h
    cases hm : mapper { mode := colmode.colmodeInsert, rowValues := [] } with
    | error e => rw [hm] at h; cases h
    | ok col =>
      rw [hm] at h
      cases h
      cases nested <;>
        simp [ValuesQuery.AppendSQLRun, hm, RowValues_AppendSQL_eq, valuesTextQuestion,
          questionToDollarPlaceholders_empty, String.append_assoc]

theorem AppendSQLRun_of_mapper_panic (q : ValuesQuery) (r : GoValue)
    (h : q.mappedRowValues = Except.error r) (buf : String) (args : List GoValue) :
    q.AppendSQLRun buf args =
      ({ caller := q, q := q, buf := buf, args := args }, Except.error r) := by
  cases hc : q.ColumnMapper with
  | none => simp [ValuesQuery.mappedRowValues, hc] at h
  | some mapper =>
    simp only [ValuesQuery.mappedRowValues, hc] at h
    cases hm : mapper { mode := colmode.colmodeInsert, rowValues := [] } with
    | ok col => rw [hm] at h; cases h
    | error e =>
      rw [hm] at h
      cases h
      simp [ValuesQuery.AppendSQLRun, hc, hm]

theorem AppendSQLRun_caller_and_outcome (q : ValuesQuery) (buf : String)
    (args : List GoValue) :
    (q.AppendSQLRun buf args).1.caller = q ∧
      (q.AppendSQLRun buf args).1.q.nested = q.nested ∧
      (q.AppendSQLRun buf args).1.q.ColumnMapper = q.ColumnMapper ∧
      AppendSQLVars.outcome (q.AppendSQLRun buf args) = q.AppendSQL buf args := by
  cases hm : q.mappedRowValues with
  | error r =>
    rw [AppendSQLRun_of_mapper_panic q r hm, AppendSQL_of_mapper_panic q r hm]
    exact ⟨rfl, rfl, rfl, rfl⟩
  | ok rows =>
    rw [AppendSQLRun_of_mappedRowValues q rows hm, AppendSQL_of_mappedRowValues q rows hm]
    exact ⟨rfl, rfl, rfl, rfl⟩

theorem mappedRowValues_of_receiver (q : ValuesQuery) (rows : RowValues)
    (hm : q.mappedRowValues = Except.ok rows) :
    ({ q with RowValues := rows } : ValuesQuery).mappedRowValues = Except.ok rows := by
  cases hc : q.ColumnMapper with
  | none => simp [ValuesQuery.mappedRowValues, hc]
  | some mapper =>
    simp only [ValuesQuery.mappedRowValues, hc] at hm ⊢
    exact hm

/-- C12: idempotent rendering. Two calls of `AppendSQL` one after the other,
each with a fresh empty buffer and argument list, the second made on the query
as the first left it, give the same text and the same argument list (or the
same panic), and the caller's query is the same afterwards: its RowValues,
ColumnMapper and nested flag are those it had, also when a mapper replaced the
rows of the receiver during the rendering. Even that receiver, with the rows
of the mapper, keeps the flag and the mapper and renders as the query does. -/
theorem C12_rendering_idempotent (q : ValuesQuery) :
    (renderTwice q).2.1 = (renderTwice q).2.2 ∧
      (renderTwice q).1 = q ∧
      (renderTwice q).2.1 = q.AppendSQL "" [] ∧
      (∀ buf args,
        (q.AppendSQLRun buf args).1.caller.RowValues = q.RowValues ∧
          (q.AppendSQLRun buf args).1.caller.ColumnMapper = q.ColumnMapper ∧
          (q.AppendSQLRun buf args).1.caller.nested = q.nested ∧
          (q.AppendSQLRun buf args).1.q.ColumnMapper = q.ColumnMapper ∧
          (q.AppendSQLRun buf args).1.q.nested = q.nested) ∧
      (∀ mapper col buf args, q.ColumnMapper = some mapper →
        mapper { mode := colmode.colmodeInsert, rowValues := [] } = Except.ok col →
        (q.AppendSQLRun buf args).1.q.RowValues = col.rowValues ∧
          (q.AppendSQLRun buf args).1.caller.RowValues = q.RowValues ∧
          (q.AppendSQLRun buf args).1.q.AppendSQL "" [] = q.AppendSQL "" []) := by
  have hfirst := AppendSQLRun_caller_and_outcome q "" []
  have hsecond := AppendSQLRun_caller_and_outcome (q.AppendSQLRun "" []).1.caller "" []
  refine ⟨?_, ?_, ?_, ?_, ?_⟩
  · show AppendSQLVars.outcome (q.AppendSQLRun "" []) =
      AppendSQLVars.outcome ((q.AppendSQLRun "" []).1.caller.AppendSQLRun "" [])
    rw [hsecond.2.2.2, hfirst.2.2.2, hfirst.1]
  · show ((q.AppendSQLRun "" []).1.caller.AppendSQLRun "" []).1.caller = q
    rw [hsecond.1, hfirst.1]
  · exact hfirst.2.2.2
  · intro buf args
    obtain ⟨h1, h2, h3, _⟩ := AppendSQLRun_caller_and_outcome q buf args
    rw [h1]
    exact ⟨rfl, rfl, rfl, h3, h2⟩
  · intro mapper col buf args hq hcol
    have hm : q.mappedRowValues = Except.ok col.rowValues := by
      simp [ValuesQuery.mappedRowValues, hq, hcol]
    rw [AppendSQLRun_of_mappedRowValues q col.rowValues hm]
    refine ⟨rfl, rfl, ?_⟩
    rw [AppendSQL_of_mappedRowValues _ col.rowValues
        (mappedRowValues_of_receiver q col.rowValues hm),
      AppendSQL_of_mappedRowValues q col.rowValues hm]

theorem C12_rendering_idempotent_witness :
    (((Values.Values [GoValue.str "x"]).Valuesx (some oneRowMapper)).AppendSQLRun
          "" []).1.q.RowValues =
        [[GoValue.int 1, GoValue.int 2]] ∧
      (((Values.Values [GoValue.str "x"]).Valuesx (some oneRowMapper)).AppendSQLRun
          "" []).1.caller.RowValues =
        ((Values.Values [GoValue.str "x"]).Valuesx (some oneRowMapper)).RowValues ∧
      (((Values.Values [GoValue.str "x"]).Valuesx (some oneRowMapper)).AppendSQLRun
          "" []).1.q.AppendSQL "" [] =
        ((Values.Values [GoValue.str "x"]).Valuesx (some oneRowMapper)).AppendSQL "" [] :=
  (C12_rendering_idempotent
      ((Values.Values [GoValue.str "x"]).Valuesx (some oneRowMapper))).2.2.2.2
    oneRowMapper { mode := colmode.colmodeInsert, rowValues := [[GoValue.int 1, GoValue.int 2]] }
    "" [] rfl rfl

/-- C13: `q.Values(vs...)` returns a query whose rows are those of `q` followed
by the one new row `vs`: the row count grows by one, the earlier rows keep their
content and order, the nested flag and the ColumnMapper are unchanged; the
constructor `Values()` returns a query with no rows, no mapper and not nested. -/
theorem C13_Values_appends_row (q : ValuesQuery) (vs : List GoValue) :
    (q.Values vs).RowValues = q.RowValues ++ [vs] ∧
      (q.Values vs).RowValues.length = q.RowValues.length + 1 ∧
      (∀ i, i < q.RowValues.length → (q.Values vs).RowValues[i]? = q.RowValues[i]?) ∧
      (q.Values vs).RowValues[q.RowValues.length]? = some vs ∧
      (q.Values vs).nested = q.nested ∧
      (q.Values vs).ColumnMapper = q.ColumnMapper ∧
      Values.RowValues = [] ∧ Values.ColumnMapper.isNone = true ∧ Values.nested = false := by
  refine ⟨rfl, by simp [ValuesQuery.Values], ?_, by simp [ValuesQuery.Values], rfl, rfl, rfl,
    rfl, rfl⟩
  intro i hi
  simp [ValuesQuery.Values, List.getElem?_append_left hi]

/-- C17: zero placeholders. For a ValuesQuery whose rendered rows hold no value
at all (the query without rows included) the translation changes nothing: the
top-level rendering is, character for character, the nested rendering, and the
argument list is empty; `Values().ToSQL()` is the text `VALUES ` with no
arguments. -/
theorem C17_zero_placeholders (q : ValuesQuery) (rows : RowValues)
    (h : q.mappedRowValues = Except.ok rows) (hz : rows.flatten = []) :
    questionToDollarPlaceholders "" (valuesTextQuestion rows) = valuesTextQuestion rows ∧
      ({ q with nested := false } : ValuesQuery).AppendSQL "" [] =
        Except.ok (valuesTextQuestion rows, []) ∧
      ({ q with nested := false } : ValuesQuery).AppendSQL "" [] = q.NestThis.AppendSQL "" [] ∧
      ({ q with nested := false } : ValuesQuery).ToSQL = (valuesTextQuestion rows, []) ∧
      Values.ToSQL = ("VALUES ", []) := by
  have hq : questionCount (valuesTextQuestion rows) = 0 := by
    rw [questionCount_valuesTextQuestion, hz]; rfl
  have ht : translateFrom 0 (valuesTextQuestion rows) = valuesTextQuestion rows :=
    translateFrom_of_questionCount_eq_zero _ _ hq
  have hU : ({ q with nested := false } : ValuesQuery).mappedRowValues = Except.ok rows := by
    simpa [ValuesQuery.mappedRowValues] using h
  have hN : q.NestThis.mappedRowValues = Except.ok rows := by
    simpa [ValuesQuery.mappedRowValues, ValuesQuery.NestThis] using h
  have h1 := AppendSQL_of_mappedRowValues _ rows hU "" []
  have h2 := AppendSQL_of_mappedRowValues _ rows hN "" []
  have h3 : ({ q with nested := false } : ValuesQuery).AppendSQL "" [] =
      Except.ok (valuesTextQuestion rows, []) := by
    rw [h1]; simp [ht, hz]
  refine ⟨by rw [questionToDollarPlaceholders_empty, ht], h3, ?_, ?_, ?_⟩
  · rw [h3, h2]; simp [ValuesQuery.NestThis, hz]
  · simp [ValuesQuery.ToSQL, h3]
  · have h4 := AppendSQL_of_mappedRowValues Values [] rfl "" []
    rw [ValuesQuery.ToSQL, h4]
    decide

theorem C17_zero_placeholders_witness :
    questionToDollarPlaceholders "" (valuesTextQuestion [[], []]) = valuesTextQuestion [[], []] ∧
      ({ (Values.Values []).Values [] with nested := false } : ValuesQuery).AppendSQL "" [] =
        Except.ok (valuesTextQuestion [[], []], []) ∧
      ({ (Values.Values []).Values [] with nested := false } : ValuesQuery).AppendSQL "" [] =
        ((Values.Values []).Values []).NestThis.AppendSQL "" [] ∧
      ({ (Values.Values []).Values [] with nested := false } : ValuesQuery).ToSQL =
        (valuesTextQuestion [[], []], []) ∧
      Values.ToSQL = ("VALUES ", []) :=
  C17_zero_placeholders ((Values.Values []).Values []) [[], []] rfl rfl

/-- C19: a ValuesQuery that is not nested translates the whole buffer: called
on a buffer holding the text `P`, `AppendSQL` leaves the translation of `P`
followed by the query's neutral rendering, so the placeholders of `P` are
rewritten too and the query's own are numbered after them; on an empty buffer it
leaves the translation of its own rendering. -/
theorem C19_translates_whole_buffer (q : ValuesQuery) (rows : RowValues)
    (h : q.mappedRowValues = Except.ok rows) (hn : q.nested = false)
    (P : String) (args : List GoValue) :
    q.AppendSQL P args =
        Except.ok (questionToDollarPlaceholders "" (P ++ valuesTextQuestion rows),
          args ++ rows.flatten) ∧
      questionToDollarPlaceholders "" (P ++ valuesTextQuestion rows) =
        questionToDollarPlaceholders "" P ++
          ("VALUES " ++ ", ".intercalate (dollarRows (questionCount P) rows)) ∧
      q.AppendSQL "" args =
        Except.ok (questionToDollarPlaceholders "" (valuesTextQuestion rows),
          args ++ rows.flatten) := by
  refine ⟨?_, ?_, ?_⟩
  · rw [AppendSQL_of_mappedRowValues q rows h, questionToDollarPlaceholders_empty]
    simp [hn]
  · rw [questionToDollarPlaceholders_empty, questionToDollarPlaceholders_empty,
      translateFrom_append, translateFrom_valuesTextQuestion_from]
    simp
  · rw [AppendSQL_of_mappedRowValues q rows h, questionToDollarPlaceholders_empty]
    simp [hn]

theorem C19_translates_whole_buffer_witness :
    (Values.Values [GoValue.int 1, GoValue.int 2]).AppendSQL "WHERE a = ? AND b IN (" [] =
        Except.ok
          (questionToDollarPlaceholders ""
            ("WHERE a = ? AND b IN (" ++ valuesTextQuestion [[GoValue.int 1, GoValue.int 2]]),
          [] ++ [[GoValue.int 1, GoValue.int 2]].flatten) ∧
      questionToDollarPlaceholders ""
          ("WHERE a = ? AND b IN (" ++ valuesTextQuestion [[GoValue.int 1, GoValue.int 2]]) =
        questionToDollarPlaceholders "" "WHERE a = ? AND b IN (" ++
          ("VALUES " ++ ", ".intercalate
            (dollarRows (questionCount "WHERE a = ? AND b IN (")
              [[GoValue.int 1, GoValue.int 2]])) ∧
      (Values.Values [GoValue.int 1, GoValue.int 2]).AppendSQL "" [] =
        Except.ok
          (questionToDollarPlaceholders "" (valuesTextQuestion [[GoValue.int 1, GoValue.int 2]]),
          [] ++ [[GoValue.int 1, GoValue.int 2]].flatten) :=
  C19_translates_whole_buffer (Values.Values [GoValue.int 1, GoValue.int 2])
    [[GoValue.int 1, GoValue.int 2]] rfl rfl "WHERE a = ? AND b IN (" []

/-- C20: when the ColumnMapper of a ValuesQuery panics with payload `r`,
`ToSQL` returns the empty query string and the argument list `[r]` of one
element: no partial text, no partly collected arguments. -/
theorem C20_ToSQL_panic_result (q : ValuesQuery) (mapper : ColumnMapperFunc) (r : GoValue)
    (hq : q.ColumnMapper = some mapper)
    (hp : mapper { mode := colmode.colmodeInsert, rowValues := [] } = Except.error r) :
    q.ToSQL = ("", [r]) ∧ q.ToSQL.1.length = 0 ∧ q.ToSQL.2.length = 1 := by
  have hm : q.mappedRowValues = Except.error r := by
    simp [ValuesQuery.mappedRowValues, hq, hp]
  have h : q.ToSQL = ("", [r]) := by
    simp [ValuesQuery.ToSQL, AppendSQL_of_mapper_panic q r hm]
  rw [h]
  exact ⟨rfl, rfl, rfl⟩

theorem C20_ToSQL_panic_result_witness :
    ((Values.Values [GoValue.int 1]).Valuesx
          (some fun _ => Except.error (GoValue.str "arity"))).ToSQL =
        ("", [GoValue.str "arity"]) ∧
      ((Values.Values [GoValue.int 1]).Valuesx
          (some fun _ => Except.error (GoValue.str "arity"))).ToSQL.1.length = 0 ∧
      ((Values.Values [GoValue.int 1]).Valuesx
          (some fun _ => Except.error (GoValue.str "arity"))).ToSQL.2.length = 1 :=
  C20_ToSQL_panic_result
    ((Values.Values [GoValue.int 1]).Valuesx (some fun _ => Except.error (GoValue.str "arity")))
    (fun _ => Except.error (GoValue.str "arity")) (GoValue.str "arity") rfl rfl

/-! ### Value and Valid accessors in a row -/

/-- C18: every accessor call consumes one column, the `*Valid` accessors too.
In extraction mode `r.Int64(f)` followed by `r.Int64Valid(f)` from position `i`
returns the Int64 of scratch destination `i` and the Valid flag of scratch
destination `i+1`, and leaves the position at `i+2`; in discovery mode the pair
declares the field twice and allocates two scratch destinations. The same holds
for the Int, Float64, String, Time and Bool pairs. -/
theorem C18_valid_consumes_a_column (r : Row) (field : Field) (predicate : Predicate) :
    (∀ (rows : Rows) (v1 v2 : NullInt64), r.rows = some rows →
        r.dest[r.index]? = some (Dest.nullInt64 v1) → r.dest[r.index + 1]? = some (Dest.nullInt64 v2) →
        (r.Int64 field).2 = Except.ok v1.Int64 ∧
          Row.Int64Valid (r.Int64 field).1 field =
            ({ r with index := r.index + 2 }, Except.ok v2.Valid)) ∧
    (∀ (rows : Rows) (v1 v2 : NullInt64), r.rows = some rows →
        r.dest[r.index]? = some (Dest.nullInt64 v1) → r.dest[r.index + 1]? = some (Dest.nullInt64 v2) →
        (r.Int field).2 = Except.ok v1.Int64 ∧
          Row.IntValid (r.Int field).1 field =
            ({ r with index := r.index + 2 }, Except.ok v2.Valid)) ∧
    (∀ (rows : Rows) (v1 v2 : NullFloat64), r.rows = some rows →
        r.dest[r.index]? = some (Dest.nullFloat64 v1) → r.dest[r.index + 1]? = some (Dest.nullFloat64 v2) →
        (r.Float64 field).2 = Except.ok v1.Float64 ∧
          Row.Float64Valid (r.Float64 field).1 field =
            ({ r with index := r.index + 2 }, Except.ok v2.Valid)) ∧
    (∀ (rows : Rows) (v1 v2 : NullString), r.rows = some rows →
        r.dest[r.index]? = some (Dest.nullString v1) → r.dest[r.index + 1]? = some (Dest.nullString v2) →
        (r.String field).2 = Except.ok v1.String ∧
          Row.StringValid (r.String field).1 field =
            ({ r with index := r.index + 2 }, Except.ok v2.Valid)) ∧
    (∀ (rows : Rows) (v1 v2 : NullTime), r.rows = some rows →
        r.dest[r.index]? = some (Dest.nullTime v1) → r.dest[r.index + 1]? = some (Dest.nullTime v2) →
        (r.Time field).2 = Except.ok v1.Time ∧
          Row.TimeValid (r.Time field).1 field =
            ({ r with index := r.index + 2 }, Except.ok v2.Valid)) ∧
    (∀ (rows : Rows) (v1 v2 : NullBool), r.rows = some rows →
        r.dest[r.index]? = some (Dest.nullBool v1) → r.dest[r.index + 1]? = some (Dest.nullBool v2) →
        (r.Bool predicate).2 = Except.ok v1.Bool ∧
          Row.BoolValid (r.Bool predicate).1 predicate =
            ({ r with index := r.index + 2 }, Except.ok v2.Valid)) ∧
    (r.rows = none →
        Row.Int64Valid (r.Int64 field).1 field =
          ({ r with
              fields := r.fields ++ [field, field],
              dest := r.dest ++ [Dest.nullInt64 ⟨0, false⟩, Dest.nullInt64 ⟨0, false⟩] },
            Except.ok false)) ∧
    (r.rows = none →
        Row.IntValid (r.Int field).1 field =
          ({ r with
              fields := r.fields ++ [field, field],
              dest := r.dest ++ [Dest.nullInt64 ⟨0, false⟩, Dest.nullInt64 ⟨0, false⟩] },
            Except.ok false)) ∧
    (r.rows = none →
        Row.Float64Valid (r.Float64 field).1 field =
          ({ r with
              fields := r.fields ++ [field, field],
              dest := r.dest ++ [Dest.nullFloat64 ⟨⟨0⟩, false⟩, Dest.nullFloat64 ⟨⟨0⟩, false⟩] },
            Except.ok false)) ∧
    (r.rows = none →
        Row.StringValid (r.String field).1 field =
          ({ r with
              fields := r.fields ++ [field, field],
              dest := r.dest ++ [Dest.nullString ⟨"", false⟩, Dest.nullString ⟨"", false⟩] },
            Except.ok false)) ∧
    (r.rows = none →
        Row.TimeValid (r.Time field).1 field =
          ({ r with
              fields := r.fields ++ [field, field],
              dest := r.dest ++ [Dest.nullTime ⟨⟨0⟩, false⟩, Dest.nullTime ⟨⟨0⟩, false⟩] },
            Except.ok false)) ∧
    (r.rows = none →
        Row.BoolValid (r.Bool predicate).1 predicate =
          ({ r with
              fields := r.fields ++
                [Field.CustomPredicate (predicate.AppendSQLExclude "" []).1
                    (predicate.AppendSQLExclude "" []).2,
                  Field.CustomPredicate (predicate.AppendSQLExclude "" []).1
                    (predicate.AppendSQLExclude "" []).2],
              dest := r.dest ++ [Dest.nullBool ⟨false, false⟩, Dest.nullBool ⟨false, false⟩] },
            Except.ok false)) := by
  refine ⟨?_, ?_, ?_, ?_, ?_, ?_, ?_, ?_, ?_, ?_, ?_, ?_⟩
  · intro rows v1 v2 hr hd1 hd2
    have h1 := RowNullInt64_extraction r rows field v1 hr hd1
    have h2 := RowNullInt64_extraction { r with index := r.index + 1 } rows field v2 hr hd2
    simp [Row.Int64, Row.Int64Valid, Row.NullInt64, thenField, h1, h2, Except.map]
  · intro rows v1 v2 hr hd1 hd2
    have h1 := RowNullInt64_extraction r rows field v1 hr hd1
    have h2 := RowNullInt64_extraction { r with index := r.index + 1 } rows field v2 hr hd2
    simp [Row.Int, intOfInt64, Row.IntValid, thenField, h1, h2, Except.map]
  · intro rows v1 v2 hr hd1 hd2
    have h1 := RowNullFloat64_extraction r rows field v1 hr hd1
    have h2 := RowNullFloat64_extraction { r with index := r.index + 1 } rows field v2 hr hd2
    simp [Row.Float64, Row.Float64Valid, thenField, h1, h2, Except.map]
  · intro rows v1 v2 hr hd1 hd2
    have h1 := RowNullString_extraction r rows field v1 hr hd1
    have h2 := RowNullString_extraction { r with index := r.index + 1 } rows field v2 hr hd2
    simp [Row.String, Row.StringValid, thenField, h1, h2, Except.map]
  · intro rows v1 v2 hr hd1 hd2
    have h1 := RowNullTime_extraction r rows field v1 hr hd1
    have h2 := RowNullTime_extraction { r with index := r.index + 1 } rows field v2 hr hd2
    simp [Row.Time, Row.TimeValid, thenField, h1, h2, Except.map]
  · intro rows v1 v2 hr hd1 hd2
    have h1 := NullBool_extraction r rows predicate v1 hr hd1
    have h2 := NullBool_extraction { r with index := r.index + 1 } rows predicate v2 hr hd2
    simp [Row.Bool, Row.BoolValid, thenField, h1, h2, Except.map]
  · intro hr
    obtain ⟨rows, index, fields, dest, tmpdest⟩ := r
    simp only at hr
    subst hr
    simp [Row.Int64, Row.Int64Valid, Row.NullInt64, thenField, RowNullInt64, Except.map]
  · intro hr
    obtain ⟨rows, index, fields, dest, tmpdest⟩ := r
    simp only at hr
    subst hr
    simp [Row.Int, intOfInt64, Row.IntValid, thenField, RowNullInt64, Except.map]
  · intro hr
    obtain ⟨rows, index, fields, dest, tmpdest⟩ := r
    simp only at hr
    subst hr
    simp [Row.Float64, Row.Float64Valid, thenField, RowNullFloat64, Except.map]
  · intro hr
    obtain ⟨rows, index, fields, dest, tmpdest⟩ := r
    simp only at hr
    subst hr
    simp [Row.String, Row.StringValid, thenField, RowNullString, Except.map]
  · intro hr
    obtain ⟨rows, index, fields, dest, tmpdest⟩ := r
    simp only at hr
    subst hr
    simp [Row.Time, Row.TimeValid, thenField, RowNullTime, Except.map]
  · intro hr
    obtain ⟨rows, index, fields, dest, tmpdest⟩ := r
    simp only at hr
    subst hr
    simp [Row.Bool, Row.BoolValid, thenField, Row.NullBool, Except.map]

theorem C18_valid_consumes_a_column_witness :
    (twoInt64Row.Int64 (Field.named "id")).2 = Except.ok 5 ∧
      Row.Int64Valid (twoInt64Row.Int64 (Field.named "id")).1 (Field.named "id") =
        ({ twoInt64Row with index := twoInt64Row.index + 2 }, Except.ok false) :=
  (C18_valid_consumes_a_column twoInt64Row (Field.named "id")
    ⟨fun buf args => (buf, args)⟩).1 sevenRows ⟨5, true⟩ ⟨0, false⟩ rfl rfl rfl

theorem C13_Values_appends_row_witness :
    ((Values.Values [GoValue.str "aaa"]).Values [GoValue.str "bbb"]).RowValues[0]? =
      (Values.Values [GoValue.str "aaa"]).RowValues[0]? :=
  (C13_Values_appends_row (Values.Values [GoValue.str "aaa"]) [GoValue.str "bbb"]).2.2.1 0
    (by decide)

/-! ### ScanInto and the typed accessors -/

theorem ScanInto_ptrNullFloat64_eq (r : Row) (rows : Rows) (field : Field) (site : CallSite)
    (hr : r.rows = some rows) :
    r.ScanInto DestArg.ptrNullFloat64 field site =
        ((RowNullFloat64 r field).1, (RowNullFloat64 r field).2.map fun v => some (Written.nullFloat64 v)) ∧
      r.ScanInto DestArg.ptrFloat64 field site =
        ((RowNullFloat64 r field).1, (RowNullFloat64 r field).2.map fun v => some (Written.float64 v.Float64)) := by
  cases h : r.destNullFloat64 <;>
    simp [Row.ScanInto, RowNullFloat64, hr, Row.storeTyped, Row.advance, h, Except.map]

theorem ScanInto_ptrNullInt64_eq (r : Row) (rows : Rows) (field : Field) (site : CallSite)
    (hr : r.rows = some rows) :
    r.ScanInto DestArg.ptrNullInt64 field site =
        ((RowNullInt64 r field).1, (RowNullInt64 r field).2.map fun v => some (Written.nullInt64 v)) ∧
      r.ScanInto DestArg.ptrInt64 field site =
        ((RowNullInt64 r field).1, (RowNullInt64 r field).2.map fun v => some (Written.int64 v.Int64)) := by
  cases h : r.destNullInt64 <;>
    simp [Row.ScanInto, RowNullInt64, hr, Row.storeTyped, Row.advance, h, Except.map]

theorem ScanInto_ptrNullString_eq (r : Row) (rows : Rows) (field : Field) (site : CallSite)
    (hr : r.rows = some rows) :
    r.ScanInto DestArg.ptrNullString field site =
        ((RowNullString r field).1, (RowNullString r field).2.map fun v => some (Written.nullString v)) ∧
      r.ScanInto DestArg.ptrString field site =
        ((RowNullString r field).1, (RowNullString r field).2.map fun v => some (Written.string v.String)) := by
  cases h : r.destNullString <;>
    simp [Row.ScanInto, RowNullString, hr, Row.storeTyped, Row.advance, h, Except.map]

theorem ScanInto_ptrNullTime_eq (r : Row) (rows : Rows) (field : Field) (site : CallSite)
    (hr : r.rows = some rows) :
    r.ScanInto DestArg.ptrNullTime field site =
        ((RowNullTime r field).1, (RowNullTime r field).2.map fun v => some (Written.nullTime v)) ∧
      r.ScanInto DestArg.ptrTime field site =
        ((RowNullTime r field).1, (RowNullTime r field).2.map fun v => some (Written.time v.Time)) := by
  cases h : r.destNullTime <;>
    simp [Row.ScanInto, RowNullTime, hr, Row.storeTyped, Row.advance, h, Except.map]

/-- C21: `ScanInto` agrees with the typed accessors. For float64, int64, string
and time, and for every Row and Field, `ScanInto` with a pointer to the nullable
wrapper, `ScanInto` with the plain pointer and the matching accessor
(`RowNullFloat64`, `RowNullInt64`, `RowNullString`, `RowNullTime`) leave the
same Row state in both modes; in extraction mode `ScanInto` stores through the
wrapper pointer the value the accessor returns and through the plain pointer its
value component (and panics when the accessor does); in discovery mode it
stores nothing. -/
theorem C21_ScanInto_agrees_with_accessors (r : Row) (field : Field) (site : CallSite) :
    ((r.ScanInto DestArg.ptrNullFloat64 field site).1 = (RowNullFloat64 r field).1 ∧
      (r.ScanInto DestArg.ptrFloat64 field site).1 = (RowNullFloat64 r field).1 ∧
      (∀ rows, r.rows = some rows →
        (r.ScanInto DestArg.ptrNullFloat64 field site).2 =
            (RowNullFloat64 r field).2.map (fun v => some (Written.nullFloat64 v)) ∧
          (r.ScanInto DestArg.ptrFloat64 field site).2 =
            (RowNullFloat64 r field).2.map (fun v => some (Written.float64 v.Float64))) ∧
      (r.rows = none →
        (r.ScanInto DestArg.ptrNullFloat64 field site).2 = Except.ok none ∧
          (r.ScanInto DestArg.ptrFloat64 field site).2 = Except.ok none)) ∧
    ((r.ScanInto DestArg.ptrNullInt64 field site).1 = (RowNullInt64 r field).1 ∧
      (r.ScanInto DestArg.ptrInt64 field site).1 = (RowNullInt64 r field).1 ∧
      (∀ rows, r.rows = some rows →
        (r.ScanInto DestArg.ptrNullInt64 field site).2 =
            (RowNullInt64 r field).2.map (fun v => some (Written.nullInt64 v)) ∧
          (r.ScanInto DestArg.ptrInt64 field site).2 =
            (RowNullInt64 r field).2.map (fun v => some (Written.int64 v.Int64))) ∧
      (r.rows = none →
        (r.ScanInto DestArg.ptrNullInt64 field site).2 = Except.ok none ∧
          (r.ScanInto DestArg.ptrInt64 field site).2 = Except.ok none)) ∧
    ((r.ScanInto DestArg.ptrNullString field site).1 = (RowNullString r field).1 ∧
      (r.ScanInto DestArg.ptrString field site).1 = (RowNullString r field).1 ∧
      (∀ rows, r.rows = some rows →
        (r.ScanInto DestArg.ptrNullString field site).2 =
            (RowNullString r field).2.map (fun v => some (Written.nullString v)) ∧
          (r.ScanInto DestArg.ptrString field site).2 =
            (RowNullString r field).2.map (fun v => some (Written.string v.String))) ∧
      (r.rows = none →
        (r.ScanInto DestArg.ptrNullString field site).2 = Except.ok none ∧
          (r.ScanInto DestArg.ptrString field site).2 = Except.ok none)) ∧
    ((r.ScanInto DestArg.ptrNullTime field site).1 = (RowNullTime r field).1 ∧
      (r.ScanInto DestArg.ptrTime field site).1 = (RowNullTime r field).1 ∧
      (∀ rows, r.rows = some rows →
        (r.ScanInto DestArg.ptrNullTime field site).2 =
            (RowNullTime r field).2.map (fun v => some (Written.nullTime v)) ∧
          (r.ScanInto DestArg.ptrTime field site).2 =
            (RowNullTime r field).2.map (fun v => some (Written.time v.Time))) ∧
      (r.rows = none →
        (r.ScanInto DestArg.ptrNullTime field site).2 = Except.ok none ∧
          (r.ScanInto DestArg.ptrTime field site).2 = Except.ok none)) := by
  refine ⟨?_, ?_, ?_, ?_⟩
  · cases hr : r.rows with
    | none =>
      obtain ⟨rows, index, fields, dest, tmpdest⟩ := r
      simp only at hr
      subst hr
      exact ⟨rfl, rfl, fun rows h => (by cases h), fun _ => ⟨rfl, rfl⟩⟩
    | some rows =>
      obtain ⟨h1, h2⟩ := ScanInto_ptrNullFloat64_eq r rows field site hr
      rw [h1, h2]
      exact ⟨rfl, rfl, fun _ _ => ⟨rfl, rfl⟩, fun h => (by cases h)⟩
  · cases hr : r.rows with
    | none =>
      obtain ⟨rows, index, fields, dest, tmpdest⟩ := r
      simp only at hr
      subst hr
      exact ⟨rfl, rfl, fun rows h => (by cases h), fun _ => ⟨rfl, rfl⟩⟩
    | some rows =>
      obtain ⟨h1, h2⟩ := ScanInto_ptrNullInt64_eq r rows field site hr
      rw [h1, h2]
      exact ⟨rfl, rfl, fun _ _ => ⟨rfl, rfl⟩, fun h => (by cases h)⟩
  · cases hr : r.rows with
    | none =>
      obtain ⟨rows, index, fields, dest, tmpdest⟩ := r
      simp only at hr
      subst hr
      exact ⟨rfl, rfl, fun rows h => (by cases h), fun _ => ⟨rfl, rfl⟩⟩
    | some rows =>
      obtain ⟨h1, h2⟩ := ScanInto_ptrNullString_eq r rows field site hr
      rw [h1, h2]
      exact ⟨rfl, rfl, fun _ _ => ⟨rfl, rfl⟩, fun h => (by cases h)⟩
  · cases hr : r.rows with
    | none =>
      obtain ⟨rows, index, fields, dest, tmpdest⟩ := r
      simp only at hr
      subst hr
      exact ⟨rfl, rfl, fun rows h => (by cases h), fun _ => ⟨rfl, rfl⟩⟩
    | some rows =>
      obtain ⟨h1, h2⟩ := ScanInto_ptrNullTime_eq r rows field site hr
      rw [h1, h2]
      exact ⟨rfl, rfl, fun _ _ => ⟨rfl, rfl⟩, fun h => (by cases h)⟩

theorem C21_ScanInto_agrees_with_accessors_witness :
    (twoInt64Row.ScanInto DestArg.ptrNullInt64 (Field.named "id") ⟨"main.go", 20⟩).2 =
        (RowNullInt64 twoInt64Row (Field.named "id")).2.map
          (fun v => some (Written.nullInt64 v)) ∧
      (twoInt64Row.ScanInto DestArg.ptrInt64 (Field.named "id") ⟨"main.go", 20⟩).2 =
        (RowNullInt64 twoInt64Row (Field.named "id")).2.map
          (fun v => some (Written.int64 v.Int64)) :=
  (C21_ScanInto_agrees_with_accessors twoInt64Row (Field.named "id")
    ⟨"main.go", 20⟩).2.1.2.2.1 sevenRows rfl

end sq

namespace sqgen

/-! ### The table generator -/

/-- C14: for every TableField that reaches `fillInTheBlanks`, that is, with
Type and Constructor empty as `getTables` builds it, and for every TableField of
a raw type the function knows, `fillInTheBlanks` returns a field whose Type is
empty or one of the seven field kinds, whose Constructor is the constructor of
that same kind (empty exactly when the Type is), and whose Name, RawType and
RawTypeEx are unchanged. -/
theorem C14_fillInTheBlanks_closed_kinds (f : TableField)
    (h : f.recognised ∨ (f.Type_ = "" ∧ f.Constructor = "")) :
    TableField.wellFilled f f.fillInTheBlanks ∧
      (f.fillInTheBlanks.Type_ = "" ↔ f.fillInTheBlanks.Constructor = "") ∧
      (∀ columnName columnType columnTypeEx,
        TableField.wellFilled (getTablesField columnName columnType columnTypeEx)
          (getTablesField columnName columnType columnTypeEx).fillInTheBlanks) := by
  have blank : ∀ g : TableField, g.Type_ = "" → g.Constructor = "" →
      TableField.wellFilled g g.fillInTheBlanks ∧
        (g.fillInTheBlanks.Type_ = "" ↔ g.fillInTheBlanks.Constructor = "") := by
    intro g h1 h2
    unfold TableField.fillInTheBlanks
    split_ifs <;>
      simp [TableField.wellFilled, filledPairs, h1, h2, FieldTypeBoolean,
        FieldConstructorBoolean, FieldTypeJSON, FieldConstructorJSON, FieldTypeNumber,
        FieldConstructorNumber, FieldTypeString, FieldConstructorString, FieldTypeTime,
        FieldConstructorTime, FieldTypeEnum, FieldConstructorEnum, FieldTypeBinary,
        FieldConstructorBinary]
  have built : ∀ columnName columnType columnTypeEx,
      TableField.wellFilled (getTablesField columnName columnType columnTypeEx)
        (getTablesField columnName columnType columnTypeEx).fillInTheBlanks :=
    fun a b c => (blank (getTablesField a b c) rfl rfl).1
  rcases h with hrec | ⟨h1, h2⟩
  · refine ⟨?_, ?_, built⟩
    all_goals
      unfold TableField.recognised at hrec
      unfold TableField.fillInTheBlanks
      split_ifs <;>
        simp_all [TableField.wellFilled, filledPairs, FieldTypeBoolean,
          FieldConstructorBoolean, FieldTypeJSON, FieldConstructorJSON, FieldTypeNumber,
          FieldConstructorNumber, FieldTypeString, FieldConstructorString, FieldTypeTime,
          FieldConstructorTime, FieldTypeEnum, FieldConstructorEnum, FieldTypeBinary,
          FieldConstructorBinary]
  · exact ⟨(blank f h1 h2).1, (blank f h1 h2).2, built⟩

theorem C14_fillInTheBlanks_closed_kinds_witness :
    TableField.wellFilled (getTablesField "created_at" "datetime" "datetime")
        (getTablesField "created_at" "datetime" "datetime").fillInTheBlanks ∧
      ((getTablesField "created_at" "datetime" "datetime").fillInTheBlanks.Type_ = "" ↔
        (getTablesField "created_at" "datetime" "datetime").fillInTheBlanks.Constructor = "") :=
  ⟨(C14_fillInTheBlanks_closed_kinds (getTablesField "created_at" "datetime" "datetime")
      (Or.inr ⟨rfl, rfl⟩)).1,
    (C14_fillInTheBlanks_closed_kinds (getTablesField "created_at" "datetime" "datetime")
      (Or.inr ⟨rfl, rfl⟩)).2.1⟩

/-- C15 fails on the code: `Export` of the column name `1st` is `1ST`, which
begins with a digit, and `Export` of `a-b` is `A-B`, which holds a hyphen; none
is an exported identifier. -/
theorem C15_Export_not_an_identifier :
    String.Export "1st" = "1ST" ∧ isExportedIdentifier (String.Export "1st") = false ∧
      String.Export "a-b" = "A-B" ∧ isExportedIdentifier (String.Export "a-b") = false ∧
      String.Export "__id" = "_ID" ∧ isExportedIdentifier (String.Export "__id") = false := by
  decide

end sqgen

namespace sqgen

/-! ### processTables -/

theorem processFields_foldl (fs acc : List TableField) :
    fs.foldl (fun fields f =>
        let field := f.fillInTheBlanks
        if field.Type_ = "" then fields else fields ++ [field]) acc =
      acc ++ (fs.map TableField.fillInTheBlanks).filter fun f => decide (f.Type_ ≠ "") := by
  induction fs generalizing acc with
  | nil => simp
  | cons f fs ih =>
    simp only [List.foldl_cons, List.map_cons]
    rw [ih]
    by_cases h : f.fillInTheBlanks.Type_ = ""
    · simp [h]
    · simp [h]

theorem processFields_eq (fs : List TableField) :
    processFields fs =
      (fs.map TableField.fillInTheBlanks).filter fun f => decide (f.Type_ ≠ "") := by
  unfold processFields
  rw [processFields_foldl]
  simp

theorem processTable_frame (tableNames : String → Nat) (t : Table) :
    (processTable tableNames t).Schema = t.Schema ∧
      (processTable tableNames t).Name = t.Name ∧
      (processTable tableNames t).RawType = t.RawType ∧
      (processTable tableNames t).Fields = processFields t.Fields := by
  unfold processTable
  by_cases h1 : t.RawType = "VIEW" <;> by_cases h2 : tableNames t.Name > 1 <;> simp [h1, h2]

/-- C22: for every list of tables `processTables` returns as many tables in
the same order with Schema, Name and RawType unchanged; the Fields of each table
are the input fields whose filled-in Type is not empty, each replaced by its
filled-in version and kept in their original order, so that no field with an
empty Type remains. -/
theorem C22_processTables_keeps_known_fields (tables : List Table) :
    (processTables tables).length = tables.length ∧
      (processTables tables).map (fun t => t.Schema) = tables.map (fun t => t.Schema) ∧
      (processTables tables).map (fun t => t.Name) = tables.map (fun t => t.Name) ∧
      (processTables tables).map (fun t => t.RawType) = tables.map (fun t => t.RawType) ∧
      (processTables tables).map (fun t => t.Fields) =
        tables.map (fun t =>
          (t.Fields.map TableField.fillInTheBlanks).filter fun f => decide (f.Type_ ≠ "")) ∧
      (∀ t ∈ processTables tables, ∀ f ∈ t.Fields, f.Type_ ≠ "") := by
  refine ⟨by simp [processTables], ?_, ?_, ?_, ?_, ?_⟩
  · simp [processTables, List.map_map, Function.comp_def, (processTable_frame _ _).1]
  · simp [processTables, List.map_map, Function.comp_def, (processTable_frame _ _).2.1]
  · simp [processTables, List.map_map, Function.comp_def, (processTable_frame _ _).2.2.1]
  · simp [processTables, List.map_map, Function.comp_def, (processTable_frame _ _).2.2.2,
      processFields_eq]
  · intro t ht f hf
    simp only [processTables, List.mem_map] at ht
    obtain ⟨t0, _, rfl⟩ := ht
    rw [(processTable_frame _ _).2.2.2, processFields_eq] at hf
    simpa using (List.mem_filter.mp hf).2

/-- C23 fails on the code: two tables of one schema whose names differ in case
only, and a table named `B__C` next to two tables named `C` of which one is in
the schema `B`, have pairwise distinct (Schema, Name) pairs and empty
Constructors, yet `processTables` gives two of them the same StructName and the
same Constructor. -/
theorem C23_processTables_collision :
    ((caseTables.map fun t => (t.Schema, t.Name)).Nodup ∧
        (∀ t ∈ caseTables, t.Constructor = "") ∧
        (processTables caseTables).map (fun t => t.StructName) =
          ["TABLE_USERS", "TABLE_USERS"] ∧
        (processTables caseTables).map (fun t => t.Constructor) = ["USERS", "USERS"]) ∧
      ((underscoreTables.map fun t => (t.Schema, t.Name)).Nodup ∧
        (∀ t ∈ underscoreTables, t.Constructor = "") ∧
        (processTables underscoreTables).map (fun t => t.StructName) =
          ["TABLE_B__C", "TABLE_B__C", "TABLE_Z__C"] ∧
        (processTables underscoreTables).map (fun t => t.Constructor) =
          ["B__C", "B__C", "Z__C"]) := by
  decide

theorem C22_processTables_keeps_known_fields_witness :
    (processTables [ordersTable]).map (fun t => t.Fields) =
        [ordersTable].map (fun t =>
          (t.Fields.map TableField.fillInTheBlanks).filter fun f => decide (f.Type_ ≠ "")) ∧
      (∀ t ∈ processTables [ordersTable], ∀ f ∈ t.Fields, f.Type_ ≠ "") :=
  (C22_processTables_keeps_known_fields [ordersTable]).2.2.2.2

end sqgen
